import Mathlib

/-!
Verification of the Poor Man's Throttle firmware (`src/PoorMansThrottle.ino`,
firmware revision 1.1.0, the single authoritative revision in the repository).

Shallow embedding conventions:

* The process-wide mutable state of the sketch (motion, ramp, kick,
  pending-reverse, connectivity, configuration) is gathered into one record
  `Sys`; every C function that mutates globals becomes a Lean function
  `Sys → Sys` (with its arguments in front).
* `millis()` is threaded explicitly as a `now : Nat` parameter.  The firmware's
  wraparound-safe deadline idiom `(int32_t)(now - t) < 0` is modelled as
  `now < t`, which is exact for a monotone millisecond clock in the absence of
  32-bit wraparound (49.7 days).  The one place where 32-bit truncation is
  reachable without any clock wraparound - the `(int32_t)` cast of the easing
  progress quotient in `smoothstepEasedThrottle` - is modelled exactly
  (`toInt32`).
* Arduino `String` values are modelled as `List Char` (`Str`), which matches
  the byte-string semantics of the sketch for the ASCII command protocol.
* The observable outbound interface is the text handed to
  `bleNotifyChunked` (the transport boundary); MTU chunking and the LED,
  serial-debug printing and the physical PWM registers are outside the modelled
  core.  The last commanded PWM output (direction and percent) is mirrored in
  the `pwmDir`/`pwmThr` fields so that the `?` query and the driver output can
  be stated.
* Arduino `String::toInt` is applied only after `isDigitStr` validation; it is
  modelled as the exact decimal value.  (On the target, values ≥ 2^31 saturate
  at `LONG_MAX`; since every consumer clamps to at most [0..2000], saturation
  and the exact value are indistinguishable, so the model is observably
  equivalent.)
-/

namespace PMT

/-! ## Enums (source lines 130-132) -/

inductive Direction where
  | STOP | FWD | REV
deriving DecidableEq, Repr

inductive RampKind where
  | NONE | MOMENTUM | BRAKE | QUICKSTOP
deriving DecidableEq, Repr

inductive PendingStage where
  | NONE | WAIT_DIR_DELAY
deriving DecidableEq, Repr

/-! ## Timing constants (source lines 162-176) -/

def P_SCALE : Int := 1000
def FULL_MOMENTUM_ACCEL_MS : Nat := 20000
def FULL_MOMENTUM_DECEL_MS : Nat := 20000
def FULL_QUICKRAMP_ACCEL_MS : Nat := 2500
def FULL_QUICKRAMP_DECEL_MS : Nat := 2500
def FULL_BRAKE_MS : Nat := 10000
def FULL_QUICKSTOP_MS : Nat := 3000
def DIR_CHANGE_DELAY_MS : Nat := 2000
def BLE_GRACE_MS : Nat := 15000

/-! ## Global state record (source lines 179-241) -/

structure Sys where
  debugMode : Bool := false
  -- motion state
  appliedThrottle : Int := 0
  targetThrottle : Int := 0
  currentDirection : Direction := .STOP
  targetDirection : Direction := .STOP
  -- ramp state
  rampActive : Bool := false
  rampStartMs : Nat := 0
  rampDurationMs : Nat := 0
  rampStartThrottle : Int := 0
  rampTargetThrottle : Int := 0
  rampDirection : Direction := .STOP
  rampKind : RampKind := .NONE
  -- start assist config
  cfgMinStart : Int := 0
  cfgKickThrottle : Int := 0
  cfgKickMs : Int := 0
  cfgKickRampDownMs : Int := 80
  cfgKickMaxApply : Int := 15
  -- kick state
  kickActive : Bool := false
  kickEndMs : Nat := 0
  kickHoldThrottle : Int := 0
  kickDirection : Direction := .STOP
  -- post-kick continuation state
  postKickPending : Bool := false
  postKickDir : Direction := .STOP
  postKickFinalThr : Int := 0
  postKickIsInstant : Bool := false
  postKickIsMomentum : Bool := false
  postKickFullAccelMs : Nat := FULL_MOMENTUM_ACCEL_MS
  postKickFullDecelMs : Nat := FULL_MOMENTUM_DECEL_MS
  -- reverse sequencing state
  reversePending : Bool := false
  pendingStage : PendingStage := .NONE
  pendingStageUntilMs : Nat := 0
  pendingFinalTargetThrottle : Int := 0
  pendingFinalDirection : Direction := .STOP
  pendingFinalIsInstant : Bool := false
  pendingFinalIsMomentum : Bool := false
  pendingFullAccelMs : Nat := FULL_MOMENTUM_ACCEL_MS
  pendingFullDecelMs : Nat := FULL_MOMENTUM_DECEL_MS
  pendingSkipDirDelay : Bool := false
  pendingSuppressKickOnce : Bool := false
  -- BLE state
  bleConnected : Bool := false
  graceActive : Bool := false
  disconnectMs : Nat := 0
  forcedStopLatched : Bool := false
  -- debug periodic-print toggle (P0/P1)
  printPeriodic : Bool := true
  -- mirror of the last applyPwmOutputs() call (output boundary)
  pwmDir : Direction := .STOP
  pwmThr : Int := 0
deriving DecidableEq, Repr

/-! ## Arithmetic helpers -/

/-- Source lines 356-360. -/
def clampI32 (v lo hi : Int) : Int :=
  if v < lo then lo else if v > hi then hi else v

/-- Arduino `max` macro on `int32_t`. -/
def maxI (a b : Int) : Int := if a > b then a else b

/-- C `abs` on `int32_t`. -/
def absI (v : Int) : Int := if v < 0 then -v else v

/-- Two's-complement reinterpretation of an unsigned value as `int32_t`,
as performed by the cast `(int32_t)q` at source line 748. -/
def toInt32 (n : Nat) : Int :=
  let m := n % 4294967296
  if m < 2147483648 then (m : Int) else (m : Int) - 4294967296

/-- Source lines 370-375 (`scaledDurationMs`). -/
def scaledDurationMs (fullScaleMs : Nat) (deltaThrottleAbs : Int) : Nat :=
  let d := clampI32 deltaThrottleAbs 0 100
  let dur := fullScaleMs * d.toNat / 100
  if 0 < d ∧ dur = 0 then 1 else dur

/-- Source lines 745-762 (`smoothstepEasedThrottle`).  All divisions in the C
code are on non-negative operands except possibly `delta * e / 1000`, where C
`/` truncates toward zero; `Int.tdiv` is Lean's round-toward-zero division. -/
def smoothstepEasedThrottle (startThr targetThr : Int)
    (elapsedMs durationMs : Nat) : Int :=
  if durationMs = 0 then targetThr
  else
    let p : Int := clampI32 (toInt32 (elapsedMs * 1000 / durationMs)) 0 P_SCALE
    let p2 : Int := p * p
    let p3 : Int := p2 * p
    let term1 : Int := Int.tdiv (3 * p2) P_SCALE
    let term2 : Int := Int.tdiv (2 * p3) (P_SCALE * P_SCALE)
    let e : Int := term1 - term2
    let delta : Int := targetThr - startThr
    let out : Int := startThr + Int.tdiv (delta * e) P_SCALE
    clampI32 out 0 100

/-! ## Character/string helpers (Arduino `String` modelled as `List Char`) -/

abbrev Str := List Char

def str (s : String) : Str := s.data

/-- C `isDigit` on the ASCII command alphabet. -/
def isDigitCh (c : Char) : Bool := 48 ≤ c.toNat ∧ c.toNat ≤ 57

/-- ASCII `isspace` characters removed by Arduino `String::trim`. -/
def isSpaceCh (c : Char) : Bool :=
  c = ' ' ∨ c = '\t' ∨ c = '\n' ∨ c = '\x0b' ∨ c = '\x0c' ∨ c = '\r'

/-- Arduino `String::trim` (drop leading and trailing ASCII whitespace). -/
def trimS (s : Str) : Str :=
  ((s.dropWhile (isSpaceCh ·)).reverse.dropWhile (isSpaceCh ·)).reverse

/-- Arduino `String::toUpperCase` on one character (ASCII). -/
def upChar (c : Char) : Char :=
  if 97 ≤ c.toNat ∧ c.toNat ≤ 122 then Char.ofNat (c.toNat - 32) else c

def upperS (s : Str) : Str := s.map upChar

/-- Source lines 362-368 (`isDigitStr`). -/
def isDigitStr (s : Str) : Bool := !s.isEmpty && s.all (isDigitCh ·)

/-- Value of a validated digit string (Arduino `String::toInt`, see header
note about saturation). -/
def digitsToInt (s : Str) : Int :=
  (s.foldl (fun a c => a * 10 + (c.toNat - 48)) 0 : Nat)

/-- Input normalisation at source lines 1134-1136: `trim()` then removal of
every CR and LF (for single characters, `replace` with `""` is deletion). -/
def normalizeCmd (raw : Str) : Str :=
  (trimS raw).filter (fun c => ¬ (c = '\r' ∨ c = '\n'))

/-- The comma tokenizer of the K handler (source lines 1245-1255): the loop
fills at most four tokens from the comma-separated fields, silently dropping
any remainder after the fourth, and each token is trimmed (line 1259).
`splitComma` produces all comma-separated fields in order. -/
def splitComma : Str → List Str
  | [] => [[]]
  | c :: rest =>
      if c = ',' then [] :: splitComma rest
      else
        match splitComma rest with
        | t :: ts => (c :: t) :: ts
        | [] => [[c]]

def kickTokens (args : Str) : List Str :=
  ((splitComma args).take 4).map trimS

def kickTokenCount (args : Str) : Nat := min (splitComma args).length 4

end PMT

namespace PMT

/-! ## Applied/target state and output (source lines 579-676) -/

def intToStr (n : Int) : Str := (toString n).data

/-- Source lines 579-588 (`setApplied`); debug bookkeeping omitted. -/
def setApplied (dir : Direction) (thr : Int) (s : Sys) : Sys :=
  let t := clampI32 thr 0 100
  { s with currentDirection := if t = 0 then .STOP else dir
           appliedThrottle := t }

/-- Source lines 590-598 (`setTarget`). -/
def setTarget (dir : Direction) (thr : Int) (s : Sys) : Sys :=
  let t := clampI32 thr 0 100
  { s with targetDirection := if t = 0 then .STOP else dir
           targetThrottle := t }

/-- Source lines 610-629 (`applyPwmOutputs`): records the commanded output at
the driver boundary.  The duty conversion `thr*PWM_MAX_DUTY/100` and its
rounded inverse in `getHwSnapshot` are collapsed to the throttle percent. -/
def applyPwmOutputs (dir : Direction) (thr : Int) (s : Sys) : Sys :=
  { s with pwmDir := if thr ≤ 0 ∨ dir = .STOP then .STOP else dir,
           pwmThr := if thr ≤ 0 ∨ dir = .STOP then 0 else clampI32 thr 0 100 }

/-- Source lines 631-676 (`stopMotorNow`). -/
def stopMotorNow (s : Sys) : Sys :=
  let s := setApplied .STOP 0 s
  let s := setTarget .STOP 0 s
  let s := { s with
    rampActive := false, rampKind := .NONE, rampStartMs := 0,
    rampDurationMs := 0, rampStartThrottle := 0, rampTargetThrottle := 0,
    rampDirection := .STOP,
    kickActive := false, kickEndMs := 0, kickHoldThrottle := 0,
    kickDirection := .STOP,
    postKickPending := false, postKickDir := .STOP, postKickFinalThr := 0,
    postKickIsInstant := false, postKickIsMomentum := false,
    postKickFullAccelMs := FULL_MOMENTUM_ACCEL_MS,
    postKickFullDecelMs := FULL_MOMENTUM_DECEL_MS,
    reversePending := false, pendingStage := .NONE, pendingStageUntilMs := 0,
    pendingFinalTargetThrottle := 0, pendingFinalDirection := .STOP,
    pendingFinalIsInstant := false, pendingFinalIsMomentum := false,
    pendingSkipDirDelay := false, pendingSuppressKickOnce := false }
  applyPwmOutputs .STOP 0 s

/-- Source lines 678-689 (`getStateString`). -/
def getStateString (s : Sys) : Str :=
  if s.appliedThrottle ≤ 0 ∨ s.currentDirection = .STOP then str "STOPPED"
  else if s.currentDirection = .FWD then str "FORWARD " ++ intToStr s.appliedThrottle
  else if s.currentDirection = .REV then str "REVERSE " ++ intToStr s.appliedThrottle
  else str "STOPPED"

/-- Source lines 691-704 (`getHwStateString`), reading the mirrored PWM
output. -/
def getHwStateString (s : Sys) : Str :=
  if s.pwmThr ≤ 0 ∨ s.pwmDir = .STOP then str "HW-STOPPED"
  else if s.pwmDir = .FWD then str "HW-FORWARD " ++ intToStr s.pwmThr
  else if s.pwmDir = .REV then str "HW-REVERSE " ++ intToStr s.pwmThr
  else str "HW-STOPPED"

def ackMsg (original : Str) : Str := str "ACK:" ++ original
def errMsg (original : Str) : Str := str "ERR:" ++ original

/-! ## Ramp engine bookkeeping (source lines 350-354, 764-812) -/

/-- Source lines 350-354 (`cancelPendingReverse`). -/
def cancelPendingReverse (s : Sys) : Sys :=
  { s with reversePending := false, pendingStage := .NONE,
           pendingSuppressKickOnce := false }

/-- Source lines 764-782 (`cancelAllMotionActivities`): cancels active ramp,
kick and the stored post-kick continuation, but not the reverse sequencing. -/
def cancelAllMotionActivities (s : Sys) : Sys :=
  { s with rampActive := false, kickActive := false, postKickPending := false }

/-- Source lines 784-812 (`startRamp`). -/
def startRamp (dirDuringRamp : Direction) (startThr endThr : Int)
    (durationMs : Nat) (kind : RampKind) (now : Nat) (s : Sys) : Sys :=
  let s := cancelAllMotionActivities s
  let st := clampI32 startThr 0 100
  let en := clampI32 endThr 0 100
  let s := { s with rampKind := kind, rampDirection := dirDuringRamp,
                    targetDirection := if en = 0 then .STOP else dirDuringRamp,
                    targetThrottle := en }
  if durationMs = 0 ∨ st = en then
    let s := setApplied dirDuringRamp en s
    applyPwmOutputs s.currentDirection s.appliedThrottle s
  else
    { s with rampActive := true, rampStartMs := now, rampDurationMs := durationMs,
             rampStartThrottle := st, rampTargetThrottle := en,
             currentDirection :=
               if st = 0 ∧ en = 0 then .STOP else dirDuringRamp }

/-! ## Start assist (source lines 814-924) -/

/-- Source lines 815-820 (`effectiveStartTargetThrottle`). -/
def effectiveStartTargetThrottle (requestedThr : Int) (startingFromStop : Bool)
    (s : Sys) : Int :=
  let r := clampI32 requestedThr 0 100
  if !startingFromStop then r
  else if 0 < s.cfgMinStart ∧ 0 < r then maxI r s.cfgMinStart
  else r

/-- Source lines 822-831 (`shouldKickOnStart`). -/
def shouldKickOnStart (startingFromStop : Bool) (finalTargetThr : Int)
    (s : Sys) : Bool :=
  if !startingFromStop then false
  else if finalTargetThr ≤ 0 then false
  else if s.cfgKickThrottle ≤ 0 ∨ s.cfgKickMs ≤ 0 then false
  else if s.cfgKickMaxApply < finalTargetThr then false
  else true

/-- Source lines 833-863 (`beginKick`). -/
def beginKick (dir : Direction) (finalTargetThr : Int)
    (afterKickIsInstant afterKickIsMomentum : Bool)
    (accelMs decelMs : Nat) (now : Nat) (s : Sys) : Sys :=
  let kickThr := clampI32 (maxI s.cfgKickThrottle s.cfgMinStart) 0 100
  let s := { s with kickActive := true, kickDirection := dir,
                    kickHoldThrottle := kickThr,
                    kickEndMs := now + s.cfgKickMs.toNat }
  let s := setApplied dir s.kickHoldThrottle s
  let s := applyPwmOutputs s.currentDirection s.appliedThrottle s
  let s := { s with postKickPending := true, postKickDir := dir,
                    postKickFinalThr := finalTargetThr,
                    postKickIsInstant := afterKickIsInstant,
                    postKickIsMomentum := afterKickIsMomentum,
                    postKickFullAccelMs := accelMs,
                    postKickFullDecelMs := decelMs }
  setTarget dir finalTargetThr s

/-- Source lines 865-924 (`continueAfterKickIfNeeded`). -/
def continueAfterKickIfNeeded (now : Nat) (s : Sys) : Sys :=
  if !s.postKickPending then s
  else
    let dir := s.postKickDir
    let finalThr := clampI32 s.postKickFinalThr 0 100
    let s := { s with postKickPending := false }
    let isInstant := s.postKickIsInstant
    let recoverTo : Int := if isInstant then finalThr else 0
    let rd : Nat := s.cfgKickRampDownMs.toNat
    -- stage the continuation FIRST (ramped commands only); the continuation is
    -- always momentum-style (deliberate, see source lines 889-892)
    let s :=
      if !isInstant then
        { s with pendingFinalDirection := dir,
                 pendingFinalTargetThrottle := finalThr,
                 pendingFinalIsInstant := false,
                 pendingFinalIsMomentum := true,
                 pendingFullAccelMs := s.postKickFullAccelMs,
                 pendingFullDecelMs := s.postKickFullDecelMs,
                 pendingSkipDirDelay := true,
                 reversePending := true,
                 pendingStage := .NONE,
                 pendingSuppressKickOnce := true }
      else s
    if rd = 0 then
      let s := setApplied dir recoverTo s
      let s := applyPwmOutputs s.currentDirection s.appliedThrottle s
      if !isInstant ∧ recoverTo = 0 ∧ s.reversePending then
        { s with pendingStage := .WAIT_DIR_DELAY, pendingStageUntilMs := now,
                 pendingSkipDirDelay := false }
      else s
    else
      startRamp dir s.appliedThrottle recoverTo rd .QUICKSTOP now s

/-! ## Motion command execution (source lines 926-1079) -/

/-- Source lines 927-943 (`executeStopRamp`). -/
def executeStopRamp (kind : RampKind) (now : Nat) (s : Sys) : Sys :=
  let s := cancelAllMotionActivities s
  let startThr := s.appliedThrottle
  let deltaAbs := absI startThr
  let full : Nat :=
    if kind = .BRAKE then FULL_BRAKE_MS
    else if kind = .MOMENTUM then FULL_MOMENTUM_DECEL_MS
    else FULL_QUICKSTOP_MS
  let dur := scaledDurationMs full deltaAbs
  let s := setTarget .STOP 0 s
  let dir := if s.currentDirection = .STOP then Direction.STOP
             else s.currentDirection
  startRamp dir startThr 0 dur kind now s

/-- Source lines 945-953 (`scheduleReverseAfterStop`). -/
def scheduleReverseAfterStop (finalDir : Direction) (finalThr : Int)
    (isInstant isMomentum : Bool) (s : Sys) : Sys :=
  { s with pendingFinalTargetThrottle := finalThr,
           pendingFinalDirection := finalDir,
           pendingFinalIsInstant := isInstant,
           pendingFinalIsMomentum := isMomentum,
           reversePending := true,
           pendingStage := .NONE }

/-- Source lines 955-992 (`executeInstant`).  (In this firmware revision no
command dispatch path reaches it - the `FQ`/`RQ` call is commented out at
source line 1311 - but it is part of the source.) -/
def executeInstant (dir : Direction) (requestedThr : Int) (now : Nat)
    (s : Sys) : Sys :=
  let s := cancelPendingReverse s
  let s := cancelAllMotionActivities s
  let thr := clampI32 requestedThr 0 100
  let s := setTarget dir thr s
  if thr = 0 then stopMotorNow s
  else if s.currentDirection ≠ .STOP ∧ s.currentDirection ≠ dir then
    let s := scheduleReverseAfterStop dir thr true false s
    executeStopRamp .QUICKSTOP now s
  else
    let startingFromStop : Bool :=
      s.appliedThrottle = 0 ∧ s.currentDirection = .STOP
    let effThr := effectiveStartTargetThrottle thr startingFromStop s
    let s := setTarget dir effThr s
    if shouldKickOnStart startingFromStop effThr s then
      beginKick dir effThr true false 0 0 now s
    else
      let s := setApplied dir effThr s
      applyPwmOutputs s.currentDirection s.appliedThrottle s

/-- Source lines 994-1061 (`executeRampedMove`). -/
def executeRampedMove (dir : Direction) (requestedThr : Int)
    (fullScaleAccelMs fullScaleDecelMs : Nat) (stopFirstRampKind : RampKind)
    (now : Nat) (s : Sys) : Sys :=
  let s := cancelPendingReverse s
  let s := cancelAllMotionActivities s
  let thr := clampI32 requestedThr 0 100
  let s := setTarget dir thr s
  if thr = 0 then executeStopRamp stopFirstRampKind now s
  else if s.currentDirection ≠ .STOP ∧ s.currentDirection ≠ dir then
    let s := scheduleReverseAfterStop dir thr false true s
    let s := { s with pendingFullAccelMs := fullScaleAccelMs,
                      pendingFullDecelMs := fullScaleDecelMs }
    executeStopRamp stopFirstRampKind now s
  else
    let startingFromStop : Bool :=
      s.appliedThrottle = 0 ∧ s.currentDirection = .STOP
    let effTarget := effectiveStartTargetThrottle thr startingFromStop s
    let s := setTarget dir effTarget s
    let s := if startingFromStop then { s with currentDirection := dir } else s
    if shouldKickOnStart startingFromStop effTarget s then
      let s := { s with pendingFullAccelMs := fullScaleAccelMs,
                        pendingFullDecelMs := fullScaleDecelMs }
      beginKick dir effTarget false true fullScaleAccelMs fullScaleDecelMs now s
    else
      let startThr := s.appliedThrottle
      let deltaAbs := absI (effTarget - startThr)
      if deltaAbs = 0 then applyPwmOutputs s.currentDirection s.appliedThrottle s
      else
        let full := if startThr < effTarget then fullScaleAccelMs
                    else fullScaleDecelMs
        let dur := scaledDurationMs full deltaAbs
        startRamp dir startThr effTarget dur .MOMENTUM now s

/-- Source lines 1063-1070 (`executeMomentum`). -/
def executeMomentum (dir : Direction) (requestedThr : Int) (now : Nat)
    (s : Sys) : Sys :=
  executeRampedMove dir requestedThr FULL_MOMENTUM_ACCEL_MS
    FULL_MOMENTUM_DECEL_MS .MOMENTUM now s

/-- Source lines 1072-1079 (`executeQuickRamp`). -/
def executeQuickRamp (dir : Direction) (requestedThr : Int) (now : Nat)
    (s : Sys) : Sys :=
  executeRampedMove dir requestedThr FULL_QUICKRAMP_ACCEL_MS
    FULL_QUICKRAMP_DECEL_MS .QUICKSTOP now s

end PMT

namespace PMT

/-! ## BLE callbacks and command dispatch (source lines 1082-1344) -/

def startsWithS (s p : Str) : Bool := p.isPrefixOf s

/-- Source lines 1083-1101 (`ServerCallbacks::onConnect`); MTU bookkeeping is
transport detail. -/
def onConnect (s : Sys) : Sys :=
  { s with bleConnected := true, graceActive := false }

/-- Source lines 1103-1118 (`ServerCallbacks::onDisconnect`). -/
def onDisconnect (now : Nat) (s : Sys) : Sys :=
  { s with bleConnected := false, graceActive := true, disconnectMs := now }

/-- The `M` (MinStart) handler, source lines 1228-1238. -/
def handleM (preserved original : Str) (s : Sys) : Sys × List Str :=
  let nStr := trimS (original.drop 1)
  if !isDigitStr nStr then (s, [errMsg preserved])
  else ({ s with cfgMinStart := clampI32 (digitsToInt nStr) 0 100 },
        [ackMsg preserved])

/-- The `K` (kick config) handler, source lines 1240-1285. -/
def handleK (preserved original : Str) (s : Sys) : Sys × List Str :=
  let args := trimS (original.drop 1)
  let toks := kickTokens args
  let tokCount := kickTokenCount args
  if tokCount ≠ 2 ∧ tokCount ≠ 4 then (s, [errMsg preserved])
  else
    let tok0 := toks.getD 0 []
    let tok1 := toks.getD 1 []
    if !isDigitStr tok0 ∨ !isDigitStr tok1 then (s, [errMsg preserved])
    else
      -- NOTE (faithful to source lines 1263-1264): the first two fields are
      -- committed BEFORE the last two are validated.
      let s := { s with cfgKickThrottle := clampI32 (digitsToInt tok0) 0 100,
                        cfgKickMs := clampI32 (digitsToInt tok1) 0 2000 }
      if tokCount = 4 then
        let tok2 := toks.getD 2 []
        let tok3 := toks.getD 3 []
        if !isDigitStr tok2 ∨ !isDigitStr tok3 then (s, [errMsg preserved])
        else ({ s with cfgKickRampDownMs := clampI32 (digitsToInt tok2) 0 2000,
                       cfgKickMaxApply := clampI32 (digitsToInt tok3) 0 100 },
              [ackMsg preserved])
      else ({ s with cfgKickRampDownMs := 80, cfgKickMaxApply := 15 },
            [ackMsg preserved])

/-- The `S`/`B` handlers, source lines 1288-1299.  `allowMotionNow` (line
1145) is recomputed here; the state is unchanged between the two reads. -/
def handleStop (preserved : Str) (kind : RampKind) (now : Nat) (s : Sys) :
    Sys × List Str :=
  if ¬ (s.forcedStopLatched ∧ ¬ s.bleConnected) then
    (executeStopRamp kind now s, [ackMsg preserved])
  else (stopMotorNow s, [ackMsg preserved])

/-- The `FQ`/`RQ` handler, source lines 1302-1319. -/
def handleQuickRamp (preserved original upper : Str) (now : Nat) (s : Sys) :
    Sys × List Str :=
  let nStr := trimS (original.drop 2)
  if !isDigitStr nStr then (s, [errMsg preserved])
  else
    let n := clampI32 (digitsToInt nStr) 0 100
    if ¬ (s.forcedStopLatched ∧ ¬ s.bleConnected) then
      let s := if s.forcedStopLatched ∧ s.bleConnected
               then { s with forcedStopLatched := false } else s
      (executeQuickRamp (if startsWithS upper (str "FQ") then .FWD else .REV)
        n now s, [ackMsg preserved])
    else (stopMotorNow s, [ackMsg preserved])

/-- The `F`/`R` (momentum) handler, source lines 1322-1340. -/
def handleMomentum (preserved original upper : Str) (now : Nat) (s : Sys) :
    Sys × List Str :=
  -- the FQ/RQ re-check at source line 1323 is unreachable from onWrite
  if startsWithS upper (str "FQ") ∨ startsWithS upper (str "RQ") then
    (s, [errMsg preserved])
  else
    let nStr := trimS (original.drop 1)
    if !isDigitStr nStr then (s, [errMsg preserved])
    else
      let n := clampI32 (digitsToInt nStr) 0 100
      if ¬ (s.forcedStopLatched ∧ ¬ s.bleConnected) then
        let s := if s.forcedStopLatched ∧ s.bleConnected
                 then { s with forcedStopLatched := false } else s
        (executeMomentum (if startsWithS upper (str "F") then .FWD else .REV)
          n now s, [ackMsg preserved])
      else (stopMotorNow s, [ackMsg preserved])

/-- Source lines 1121-1343 (`RxCallbacks::onWrite`).  The second component is
the list of texts handed to `bleNotifyChunked` (ACK/ERR envelopes and raw
query replies), in order. -/
def onWrite (raw : Str) (now : Nat) (s : Sys) : Sys × List Str :=
  if raw.isEmpty then (s, [])
  else
    let preserved := raw
    let original := normalizeCmd raw
    let upper := upperS original
    if upper = str "?" then (s, [getHwStateString s])
    else if upper = str "??" then (s, [getStateString s])
    else if upper = str "V" then (s, [ackMsg (str "1.1.0")])
    else if upper = str "G" then (s, [str "9bd6-1e8cde2c9000"])
    else if upper = str "D1" then
      ({ s with debugMode := true }, [ackMsg preserved])
    else if upper = str "D0" then
      ({ s with debugMode := false }, [ackMsg preserved])
    else if upper = str "P0" then
      ({ s with printPeriodic := true }, [ackMsg preserved])
    else if upper = str "P1" then
      ({ s with printPeriodic := false }, [ackMsg preserved])
    else if startsWithS upper (str "M") then handleM preserved original s
    else if startsWithS upper (str "K") then handleK preserved original s
    else if upper = str "S" then handleStop preserved .QUICKSTOP now s
    else if upper = str "B" then handleStop preserved .BRAKE now s
    else if startsWithS upper (str "FQ") ∨ startsWithS upper (str "RQ") then
      handleQuickRamp preserved original upper now s
    else if startsWithS upper (str "F") ∨ startsWithS upper (str "R") then
      handleMomentum preserved original upper now s
    else (s, [errMsg preserved])

/-! ## Main loop tasks (source lines 1419-1591) -/

/-- Source lines 1419-1456 (`processRamp`).  The second `millis()` call when
arming the direction delay (line 1452) is the same tick instant `now`. -/
def processRamp (now : Nat) (s : Sys) : Sys :=
  if !s.rampActive then s
  else
    let elapsed := now - s.rampStartMs
    let newThr := smoothstepEasedThrottle s.rampStartThrottle
        s.rampTargetThrottle elapsed s.rampDurationMs
    let s :=
      if s.rampTargetThrottle = 0 ∧ newThr = 0 then
        applyPwmOutputs .STOP 0 (setApplied .STOP 0 s)
      else
        let s := setApplied s.rampDirection newThr s
        applyPwmOutputs s.currentDirection s.appliedThrottle s
    if s.rampDurationMs ≤ elapsed then
      let s := { s with rampActive := false }
      let s :=
        if s.rampTargetThrottle = 0 then
          applyPwmOutputs .STOP 0 (setApplied .STOP 0 s)
        else
          let s := setApplied s.rampDirection s.rampTargetThrottle s
          applyPwmOutputs s.currentDirection s.appliedThrottle s
      if s.reversePending ∧ s.rampTargetThrottle = 0 then
        { s with pendingStage := .WAIT_DIR_DELAY,
                 pendingStageUntilMs :=
                   now + (if s.pendingSkipDirDelay then 0 else DIR_CHANGE_DELAY_MS),
                 pendingSkipDirDelay := false }
      else s
    else s

/-- Source lines 1458-1504 (`processPendingReverse`). -/
def processPendingReverse (now : Nat) (s : Sys) : Sys :=
  if !s.reversePending then s
  else if s.pendingStage ≠ .WAIT_DIR_DELAY then s
  else if now < s.pendingStageUntilMs then s
  else
    let s := { s with pendingStage := .NONE }
    let suppressKick := s.pendingSuppressKickOnce
    let s := { s with pendingSuppressKickOnce := false }
    let dir := s.pendingFinalDirection
    let thr := clampI32 s.pendingFinalTargetThrottle 0 100
    let startingFromStop : Bool :=
      s.appliedThrottle = 0 ∧ s.currentDirection = .STOP
    let effThr := effectiveStartTargetThrottle thr startingFromStop s
    let s := setTarget dir effThr s
    if ¬suppressKick ∧ shouldKickOnStart startingFromStop effThr s then
      beginKick dir effThr s.pendingFinalIsInstant s.pendingFinalIsMomentum
        s.pendingFullAccelMs s.pendingFullDecelMs now s
    else
      let s := { s with reversePending := false }
      if s.pendingFinalIsInstant then
        let s := setApplied dir effThr s
        applyPwmOutputs s.currentDirection s.appliedThrottle s
      else if s.pendingFinalIsMomentum then
        let dur := scaledDurationMs s.pendingFullAccelMs (absI effThr)
        startRamp dir 0 effThr dur .MOMENTUM now s
      else
        let s := setApplied dir effThr s
        applyPwmOutputs s.currentDirection s.appliedThrottle s

/-- Source lines 1506-1518 (`processKick`). -/
def processKick (now : Nat) (s : Sys) : Sys :=
  if !s.kickActive then s
  else if now < s.kickEndMs then
    let s := setApplied s.kickDirection s.kickHoldThrottle s
    applyPwmOutputs s.currentDirection s.appliedThrottle s
  else
    continueAfterKickIfNeeded now { s with kickActive := false }

/-- Source lines 1520-1571 (`processBleGrace`); countdown logging omitted. -/
def processBleGrace (now : Nat) (s : Sys) : Sys :=
  if !s.graceActive then s
  else if BLE_GRACE_MS ≤ now - s.disconnectMs then
    let s := { s with graceActive := false, forcedStopLatched := true }
    executeStopRamp .QUICKSTOP now s
  else s

/-- Source lines 1573-1591 (`loop`); the LED service and debug snapshot do not
touch motion state. -/
def loopTick (now : Nat) (s : Sys) : Sys :=
  let s := processBleGrace now s
  let s := processKick now s
  let s := processRamp now s
  let s := processPendingReverse now s
  if !s.rampActive ∧ !s.kickActive then
    let s := if s.appliedThrottle = 0 then { s with currentDirection := .STOP }
             else s
    applyPwmOutputs s.currentDirection s.appliedThrottle s
  else s

/-- Boot state: the global initialisers (source lines 186-241) followed by
`stopMotorNow("Boot")` in `setup()` (source line 1404). -/
def initialState : Sys := stopMotorNow {}

/-- Every state the firmware can be in: boot, then any interleaving of loop
ticks, received command writes, and BLE connect/disconnect events. -/
inductive Reachable : Sys → Prop where
  | init : Reachable initialState
  | tick (now : Nat) {s : Sys} : Reachable s → Reachable (loopTick now s)
  | write (raw : Str) (now : Nat) {s : Sys} :
      Reachable s → Reachable (onWrite raw now s).1
  | connect {s : Sys} : Reachable s → Reachable (onConnect s)
  | disconnect (now : Nat) {s : Sys} :
      Reachable s → Reachable (onDisconnect now s)


/-- The easing formula exactly as the specification words it: progress
`p = clamp(elapsed*1000/duration, 0, 1000)` with NO 32-bit narrowing of the
quotient, `e = 3p^2/1000 - 2p^3/1000^2`, output `start + (end-start)*e/1000`
clamped to [0,100]; `duration = 0` yields the end value immediately.  Used
only to compare the specification against `smoothstepEasedThrottle`. -/
def easeClaim (startThr targetThr : Int) (elapsedMs durationMs : Nat) : Int :=
  if durationMs = 0 then targetThr
  else
    let p : Int := clampI32 ((elapsedMs * 1000 / durationMs : Nat) : Int)
      0 P_SCALE
    let p2 : Int := p * p
    let p3 : Int := p2 * p
    let term1 : Int := Int.tdiv (3 * p2) P_SCALE
    let term2 : Int := Int.tdiv (2 * p3) (P_SCALE * P_SCALE)
    let e : Int := term1 - term2
    let out : Int := startThr + Int.tdiv ((targetThr - startThr) * e) P_SCALE
    clampI32 out 0 100
end PMT

namespace PMT

/-! ## System invariant

`Inv` is the inductive invariant of the motion engine.  Its components:

* `throttleOk`: the applied throttle stays in [0,100];
* `stopZero`: whenever the applied direction is `STOP` the applied throttle
  is 0 (the converse direction of the documented iff fails, see `C2`);
* `rampOk`: an active ramp never carries the `STOP` direction, its target is
  in range, and the applied direction is the ramp direction (or a zero
  crossing of a stop-ramp);
* `kickOk`: an active kick excludes an active ramp, holds a positive
  throttle in its own (non-stop) direction;
* `postKickOk`: a stored post-kick continuation only exists under an active
  kick and in the kick's direction;
* `pendingOk`: a pending reverse never targets the `STOP` direction;
* `stageOk`: while the direction-change delay stage is armed the engine is
  fully stopped and no ramp or kick runs. -/

def throttleOk (s : Sys) : Prop :=
  0 ≤ s.appliedThrottle ∧ s.appliedThrottle ≤ 100

def stopZero (s : Sys) : Prop :=
  s.currentDirection = .STOP → s.appliedThrottle = 0

def rampOk (s : Sys) : Prop :=
  s.rampActive = true →
    s.rampDirection ≠ .STOP ∧
    0 ≤ s.rampTargetThrottle ∧ s.rampTargetThrottle ≤ 100 ∧
    (s.currentDirection = s.rampDirection ∨
      (s.currentDirection = .STOP ∧ s.appliedThrottle = 0))

def kickOk (s : Sys) : Prop :=
  s.kickActive = true →
    s.rampActive = false ∧ s.kickDirection ≠ .STOP ∧
    0 < s.kickHoldThrottle ∧ s.kickHoldThrottle ≤ 100 ∧
    s.currentDirection = s.kickDirection ∧
    s.appliedThrottle = s.kickHoldThrottle

def postKickOk (s : Sys) : Prop :=
  s.postKickPending = true →
    s.kickActive = true ∧ s.postKickDir = s.kickDirection

def pendingOk (s : Sys) : Prop :=
  s.reversePending = true → s.pendingFinalDirection ≠ .STOP

def stageOk (s : Sys) : Prop :=
  s.pendingStage = .WAIT_DIR_DELAY →
    s.reversePending = true ∧ s.appliedThrottle = 0 ∧
    s.currentDirection = .STOP ∧ s.rampActive = false ∧ s.kickActive = false

def Inv (s : Sys) : Prop :=
  throttleOk s ∧ stopZero s ∧ rampOk s ∧ kickOk s ∧ postKickOk s ∧
  pendingOk s ∧ stageOk s

instance (s : Sys) : Decidable (Inv s) := by
  unfold Inv throttleOk stopZero rampOk kickOk postKickOk pendingOk stageOk
  infer_instance

/-! ### Clamp bounds -/

theorem clampI32_lb {v lo hi : Int} (h : lo ≤ hi) : lo ≤ clampI32 v lo hi := by
  unfold clampI32; split_ifs <;> omega

theorem clampI32_ub {v lo hi : Int} (h : lo ≤ hi) : clampI32 v lo hi ≤ hi := by
  unfold clampI32; split_ifs <;> omega

theorem clampI32_pos {v : Int} (h : 0 < v) : 0 < clampI32 v 0 100 := by
  unfold clampI32; split_ifs <;> omega

/-! ### Invariant preservation, innermost functions first -/

theorem inv_stopMotorNow (s : Sys) : Inv (stopMotorNow s) := by
  simp [Inv, throttleOk, stopZero, rampOk, kickOk, postKickOk, pendingOk,
    stageOk, stopMotorNow, setApplied, setTarget, applyPwmOutputs, clampI32]

end PMT

namespace PMT

theorem clampI32_idem {lo hi : Int} (v : Int) (h : lo ≤ hi) :
    clampI32 (clampI32 v lo hi) lo hi = clampI32 v lo hi := by
  unfold clampI32; split_ifs <;> omega

theorem inv_applyPwm (d : Direction) (t : Int) (s : Sys) :
    Inv (applyPwmOutputs d t s) ↔ Inv s := Iff.rfl

theorem inv_setTarget (d : Direction) (t : Int) (s : Sys) :
    Inv (setTarget d t s) ↔ Inv s := Iff.rfl

theorem inv_startRamp (dir : Direction) (startThr endThr : Int) (dur : Nat)
    (kind : RampKind) (now : Nat) {s : Sys} (h : Inv s)
    (hdir : dir = .STOP →
      clampI32 startThr 0 100 = 0 ∧ clampI32 endThr 0 100 = 0)
    (hstage : s.pendingStage = .WAIT_DIR_DELAY →
      clampI32 startThr 0 100 = 0 ∧ clampI32 endThr 0 100 = 0) :
    Inv (startRamp dir startThr endThr dur kind now s) := by
  obtain ⟨⟨hA1, hA2⟩, hB, hC, hD, hE, hF, hG⟩ := h
  simp only [startRamp, cancelAllMotionActivities]
  by_cases hmain : dur = 0 ∨ clampI32 startThr 0 100 = clampI32 endThr 0 100
  · rw [if_pos hmain, inv_applyPwm]
    unfold setApplied
    simp only [clampI32_idem _ (by omega : (0:Int) ≤ 100)]
    unfold Inv throttleOk stopZero rampOk kickOk postKickOk pendingOk stageOk
    refine ⟨⟨clampI32_lb (by omega), clampI32_ub (by omega)⟩,
            ?_, ?_, ?_, ?_, ?_, ?_⟩
    · intro hz
      show clampI32 endThr 0 100 = 0
      by_cases he : clampI32 endThr 0 100 = 0
      · exact he
      · rw [show ((if clampI32 endThr 0 100 = 0 then Direction.STOP else dir)
              = dir) from if_neg he] at hz
        exact absurd (hdir hz).2 he
    · intro hra; exact absurd hra (by simp)
    · intro hka; exact absurd hka (by simp)
    · intro hpk; exact absurd hpk (by simp)
    · intro hrp; exact hF hrp
    · intro hw
      have hse := hstage hw
      have hg := hG hw
      exact ⟨hg.1, by simp [hse.2], by simp [hse.2], rfl, rfl⟩
  · have hne : ¬ (clampI32 startThr 0 100 = 0 ∧ clampI32 endThr 0 100 = 0) := by
      intro hu
      exact hmain (Or.inr (hu.1.trans hu.2.symm))
    have hds : dir ≠ .STOP := fun hd => hne (hdir hd)
    rw [if_neg hmain]
    unfold Inv throttleOk stopZero rampOk kickOk postKickOk pendingOk stageOk
    refine ⟨⟨hA1, hA2⟩, ?_, ?_, ?_, ?_, ?_, ?_⟩
    · intro hz
      rw [show ((if clampI32 startThr 0 100 = 0 ∧ clampI32 endThr 0 100 = 0
            then Direction.STOP else dir) = dir) from if_neg hne] at hz
      exact absurd hz hds
    · intro _
      refine ⟨hds, clampI32_lb (by omega), clampI32_ub (by omega), Or.inl ?_⟩
      exact if_neg hne
    · intro hka; exact absurd hka (by simp)
    · intro hpk; exact absurd hpk (by simp)
    · intro hrp; exact hF hrp
    · intro hw; exact absurd (hstage hw) hne

end PMT

namespace PMT

theorem inv_cancelAll {s : Sys} (h : Inv s) :
    Inv (cancelAllMotionActivities s) := by
  obtain ⟨hA, hB, hC, hD, hE, hF, hG⟩ := h
  unfold cancelAllMotionActivities
  refine ⟨hA, hB, ?_, ?_, ?_, hF, ?_⟩
  · intro hra; exact absurd hra (by simp)
  · intro hka; exact absurd hka (by simp)
  · intro hpk; exact absurd hpk (by simp)
  · intro hw
    obtain ⟨a, b, c, _, _⟩ := hG hw
    exact ⟨a, b, c, rfl, rfl⟩

theorem inv_cancelPendingReverse {s : Sys} (h : Inv s) :
    Inv (cancelPendingReverse s) := by
  obtain ⟨hA, hB, hC, hD, hE, hF, hG⟩ := h
  unfold cancelPendingReverse
  refine ⟨hA, hB, hC, hD, hE, ?_, ?_⟩
  · intro hrp; exact absurd hrp (by simp)
  · intro hw; exact absurd hw (by simp)

theorem inv_executeStopRamp (kind : RampKind) (now : Nat) {s : Sys}
    (h : Inv s) : Inv (executeStopRamp kind now s) := by
  obtain ⟨hA, hB, hC, hD, hE, hF, hG⟩ := h
  simp only [executeStopRamp]
  apply inv_startRamp
  · exact inv_setTarget _ _ _ |>.mpr (inv_cancelAll ⟨hA, hB, hC, hD, hE, hF, hG⟩)
  · intro hd
    have hd' : (if s.currentDirection = Direction.STOP then Direction.STOP
        else s.currentDirection) = Direction.STOP := hd
    by_cases hc : s.currentDirection = Direction.STOP
    · have hz : s.appliedThrottle = 0 := hB hc
      constructor
      · show clampI32 s.appliedThrottle 0 100 = 0
        rw [hz]; decide
      · decide
    · rw [if_neg hc] at hd'
      exact absurd hd' hc
  · intro hw
    have hw' : s.pendingStage = PendingStage.WAIT_DIR_DELAY := hw
    obtain ⟨_, hz, _, _, _⟩ := hG hw'
    constructor
    · show clampI32 s.appliedThrottle 0 100 = 0
      rw [hz]; decide
    · decide

theorem inv_beginKick (dir : Direction) (finalThr : Int)
    (inst mom : Bool) (am dm : Nat) (now : Nat) {s : Sys} (h : Inv s)
    (hramp : s.rampActive = false) (hstage : s.pendingStage = .NONE)
    (hdir : dir ≠ .STOP) (hkick : 0 < s.cfgKickThrottle) :
    Inv (beginKick dir finalThr inst mom am dm now s) := by
  obtain ⟨hA, hB, hC, hD, hE, hF, hG⟩ := h
  have hold : 0 < clampI32 (maxI s.cfgKickThrottle s.cfgMinStart) 0 100 := by
    unfold maxI clampI32; split_ifs <;> omega
  have holdu : clampI32 (maxI s.cfgKickThrottle s.cfgMinStart) 0 100 ≤ 100 :=
    clampI32_ub (by omega)
  simp only [beginKick, setTarget, setApplied, applyPwmOutputs]
  rw [clampI32_idem _ (by omega : (0:Int) ≤ 100)]
  rw [if_neg (by omega :
    ¬ clampI32 (maxI s.cfgKickThrottle s.cfgMinStart) 0 100 = 0)]
  refine ⟨⟨?_, holdu⟩, ?_, ?_, ?_, ?_, hF, ?_⟩
  · show 0 ≤ clampI32 (maxI s.cfgKickThrottle s.cfgMinStart) 0 100
    omega
  · intro hz; exact absurd hz hdir
  · intro hra; exact absurd hra (by simp [hramp])
  · intro _; exact ⟨hramp, hdir, hold, holdu, rfl, rfl⟩
  · intro _; exact ⟨rfl, rfl⟩
  · intro hw; rw [hstage] at hw; exact absurd hw (by simp)

end PMT

namespace PMT

theorem rampOk_of_off {s : Sys} (h : s.rampActive = false) : rampOk s :=
  fun hr => absurd hr (by simp [h])

theorem kickOk_of_off {s : Sys} (h : s.kickActive = false) : kickOk s :=
  fun hk => absurd hk (by simp [h])

theorem postKickOk_of_off {s : Sys} (h : s.postKickPending = false) :
    postKickOk s := fun hp => absurd hp (by simp [h])

theorem pendingOk_of_off {s : Sys} (h : s.reversePending = false) :
    pendingOk s := fun hp => absurd hp (by simp [h])

theorem stageOk_of_none {s : Sys} (h : s.pendingStage = .NONE) : stageOk s :=
  fun hw => absurd (h ▸ hw) (by simp)

theorem clampI32_zero : clampI32 0 0 100 = 0 := rfl

theorem inv_continueAfterKick (now : Nat) {s : Sys}
    (hA : throttleOk s) (hB : stopZero s)
    (hramp : s.rampActive = false) (hkick : s.kickActive = false)
    (hstage : s.pendingStage = .NONE)
    (hpd : s.postKickPending = true → s.postKickDir ≠ .STOP)
    (hF : pendingOk s) :
    Inv (continueAfterKickIfNeeded now s) := by
  obtain ⟨hA1, hA2⟩ := hA
  by_cases hp : s.postKickPending = true
  case neg =>
    rw [Bool.not_eq_true] at hp
    simp only [continueAfterKickIfNeeded, hp, Bool.not_false, if_true]
    exact ⟨⟨hA1, hA2⟩, hB, rampOk_of_off hramp, kickOk_of_off hkick,
           postKickOk_of_off hp, hF, stageOk_of_none hstage⟩
  case pos =>
    have hdir : s.postKickDir ≠ .STOP := hpd hp
    by_cases hins : s.postKickIsInstant = true
    · by_cases hrd : s.cfgKickRampDownMs.toNat = 0
      · simp only [continueAfterKickIfNeeded, hp, hins, hrd, Bool.not_true,
          Bool.false_eq_true, if_false, if_true, false_and, and_false,
          true_and, and_true, setApplied, applyPwmOutputs,
          clampI32_idem _ (by omega : (0:Int) ≤ 100), reduceIte]
        refine ⟨⟨clampI32_lb (by omega), clampI32_ub (by omega)⟩, ?_,
               rampOk_of_off hramp, kickOk_of_off hkick,
               postKickOk_of_off rfl, hF, stageOk_of_none hstage⟩
        intro hz
        show clampI32 s.postKickFinalThr 0 100 = 0
        by_cases he : clampI32 s.postKickFinalThr 0 100 = 0
        · exact he
        · have hz' : (if clampI32 s.postKickFinalThr 0 100 = 0
              then Direction.STOP else s.postKickDir) = Direction.STOP := hz
          rw [if_neg he] at hz'
          exact absurd hz' hdir
      · simp only [continueAfterKickIfNeeded, hp, hins, Bool.not_true,
          Bool.false_eq_true, if_false, if_true, false_and, and_false,
          true_and, and_true, reduceIte]
        rw [if_neg hrd]
        apply inv_startRamp
        · exact ⟨⟨hA1, hA2⟩, hB, rampOk_of_off hramp, kickOk_of_off hkick,
                 postKickOk_of_off rfl, hF, stageOk_of_none hstage⟩
        · intro hd; exact absurd hd hdir
        · intro hw; exact absurd (hstage ▸ hw) (by simp)
    · rw [Bool.not_eq_true] at hins
      by_cases hrd : s.cfgKickRampDownMs.toNat = 0
      · simp only [continueAfterKickIfNeeded, hp, hins, hrd, Bool.not_true,
          Bool.not_false, Bool.false_eq_true, if_false, if_true, false_and,
          and_false, true_and, and_true, setApplied, applyPwmOutputs,
          clampI32_zero, reduceIte]
        refine ⟨⟨le_refl 0, show (0:Int) ≤ 100 by decide⟩, fun _ => rfl, rampOk_of_off hramp,
               kickOk_of_off hkick, postKickOk_of_off rfl, ?_, ?_⟩
        · intro _
          show s.postKickDir ≠ .STOP
          exact hdir
        · intro _
          exact ⟨rfl, rfl, rfl, hramp, hkick⟩
      · simp only [continueAfterKickIfNeeded, hp, hins, Bool.not_true,
          Bool.not_false, Bool.false_eq_true, if_false, if_true, false_and,
          and_false, true_and, and_true, reduceIte]
        rw [if_neg hrd]
        apply inv_startRamp
        · refine ⟨⟨hA1, hA2⟩, hB, rampOk_of_off hramp, kickOk_of_off hkick,
                 postKickOk_of_off rfl, ?_, stageOk_of_none rfl⟩
          intro _
          show s.postKickDir ≠ .STOP
          exact hdir
        · intro hd; exact absurd hd hdir
        · intro hw; exact absurd hw (by simp)
end PMT

namespace PMT

theorem clampI32_eq_self {v : Int} (h1 : 0 ≤ v) (h2 : v ≤ 100) :
    clampI32 v 0 100 = v := by unfold clampI32; split_ifs <;> omega

theorem smoothstep_range (a b : Int) (e d : Nat) (hb1 : 0 ≤ b)
    (hb2 : b ≤ 100) :
    0 ≤ smoothstepEasedThrottle a b e d ∧
      smoothstepEasedThrottle a b e d ≤ 100 := by
  unfold smoothstepEasedThrottle
  split_ifs
  · exact ⟨hb1, hb2⟩
  · exact ⟨clampI32_lb (by omega), clampI32_ub (by omega)⟩

theorem inv_processKick (now : Nat) {s : Sys} (h : Inv s) :
    Inv (processKick now s) := by
  obtain ⟨⟨hA1, hA2⟩, hB, hC, hD, hE, hF, hG⟩ := h
  by_cases hk : s.kickActive = true
  case neg =>
    rw [Bool.not_eq_true] at hk
    simp only [processKick, hk, Bool.not_false, if_true]
    exact ⟨⟨hA1, hA2⟩, hB, hC, hD, hE, hF, hG⟩
  case pos =>
    obtain ⟨hkr, hkd, hkh1, hkh2, hkc, hka⟩ := hD hk
    have hstageN : s.pendingStage = .NONE := by
      cases hps : s.pendingStage
      · rfl
      · exact absurd (hG hps).2.2.2.2 (by simp [hk])
    simp only [processKick, hk, Bool.not_true, Bool.false_eq_true, if_false]
    by_cases ht : now < s.kickEndMs
    · rw [if_pos ht]
      simp only [setApplied, applyPwmOutputs,
        clampI32_eq_self (by omega) hkh2]
      rw [if_neg (by omega : ¬ s.kickHoldThrottle = 0)]
      refine ⟨⟨le_of_lt hkh1, hkh2⟩, ?_, ?_, ?_, ?_, hF, ?_⟩
      · intro hz; exact absurd hz hkd
      · exact rampOk_of_off hkr
      · intro _; exact ⟨hkr, hkd, hkh1, hkh2, rfl, rfl⟩
      · intro hp; exact ⟨(hE hp).1, (hE hp).2⟩
      · intro hw; exact absurd (hstageN ▸ hw) (by simp)
    · rw [if_neg ht]
      apply inv_continueAfterKick
      · exact ⟨hA1, hA2⟩
      · exact hB
      · exact hkr
      · rfl
      · exact hstageN
      · intro hp
        have := (hE hp).2
        show s.postKickDir ≠ .STOP
        rw [this]
        exact hkd
      · exact hF

theorem inv_processRamp (now : Nat) {s : Sys} (h : Inv s) :
    Inv (processRamp now s) := by
  obtain ⟨⟨hA1, hA2⟩, hB, hC, hD, hE, hF, hG⟩ := h
  by_cases hr : s.rampActive = true
  case neg =>
    rw [Bool.not_eq_true] at hr
    simp only [processRamp, hr, Bool.not_false, if_true]
    exact ⟨⟨hA1, hA2⟩, hB, hC, hD, hE, hF, hG⟩
  case pos =>
    obtain ⟨hrd0, hrt1, hrt2, hcd⟩ := hC hr
    have hknot : s.kickActive = false := by
      cases hkc : s.kickActive
      · rfl
      · exact absurd (hD hkc).1 (by simp [hr])
    have hstageN : s.pendingStage = .NONE := by
      cases hps : s.pendingStage
      · rfl
      · exact absurd (hG hps).2.2.2.1 (by simp [hr])
    have hpknot : s.postKickPending = false := by
      cases hpk : s.postKickPending
      · rfl
      · exact absurd (hE hpk).1 (by simp [hknot])
    obtain ⟨hnt1, hnt2⟩ := smoothstep_range s.rampStartThrottle
      s.rampTargetThrottle (now - s.rampStartMs) s.rampDurationMs hrt1 hrt2
    simp only [processRamp, hr, Bool.not_true, Bool.false_eq_true, if_false]
    by_cases hmid : s.rampTargetThrottle = 0 ∧
        smoothstepEasedThrottle s.rampStartThrottle s.rampTargetThrottle
          (now - s.rampStartMs) s.rampDurationMs = 0
    · rw [if_pos hmid]
      simp only [setApplied, applyPwmOutputs, clampI32_zero, reduceIte]
      by_cases hdone : s.rampDurationMs ≤ now - s.rampStartMs
      · rw [if_pos hdone, if_pos hmid.1]
        simp only [setApplied, applyPwmOutputs, clampI32_zero, reduceIte]
        by_cases hrev : s.reversePending = true
        · rw [if_pos ⟨hrev, hmid.1⟩]
          refine ⟨⟨le_refl 0, show (0:Int) ≤ 100 by decide⟩, fun _ => rfl,
                 rampOk_of_off rfl, kickOk_of_off hknot,
                 postKickOk_of_off hpknot, hF, ?_⟩
          intro _
          exact ⟨hrev, rfl, rfl, rfl, hknot⟩
        · rw [Bool.not_eq_true] at hrev
          rw [if_neg (by simp [hrev])]
          exact ⟨⟨le_refl 0, show (0:Int) ≤ 100 by decide⟩, fun _ => rfl,
                 rampOk_of_off rfl, kickOk_of_off hknot,
                 postKickOk_of_off hpknot, hF, stageOk_of_none hstageN⟩
      · rw [if_neg hdone]
        refine ⟨⟨le_refl 0, show (0:Int) ≤ 100 by decide⟩, fun _ => rfl,
               ?_, kickOk_of_off hknot, postKickOk_of_off hpknot, hF,
               stageOk_of_none hstageN⟩
        intro _
        exact ⟨hrd0, hrt1, hrt2, Or.inr ⟨rfl, rfl⟩⟩
    · rw [if_neg hmid]
      simp only [setApplied, applyPwmOutputs,
        clampI32_eq_self hnt1 hnt2]
      by_cases hdone : s.rampDurationMs ≤ now - s.rampStartMs
      · rw [if_pos hdone]
        by_cases htz : s.rampTargetThrottle = 0
        · rw [if_pos htz]
          simp only [setApplied, applyPwmOutputs, clampI32_zero, reduceIte]
          by_cases hrev : s.reversePending = true
          · rw [if_pos ⟨hrev, htz⟩]
            refine ⟨⟨le_refl 0, show (0:Int) ≤ 100 by decide⟩, fun _ => rfl,
                   rampOk_of_off rfl, kickOk_of_off hknot,
                   postKickOk_of_off hpknot, hF, ?_⟩
            intro _
            exact ⟨hrev, rfl, rfl, rfl, hknot⟩
          · rw [Bool.not_eq_true] at hrev
            rw [if_neg (by simp [hrev])]
            exact ⟨⟨le_refl 0, show (0:Int) ≤ 100 by decide⟩, fun _ => rfl,
                   rampOk_of_off rfl, kickOk_of_off hknot,
                   postKickOk_of_off hpknot, hF, stageOk_of_none hstageN⟩
        · rw [if_neg htz]
          simp only [setApplied, applyPwmOutputs,
            clampI32_eq_self hrt1 hrt2]
          rw [if_neg htz]
          rw [if_neg (show ¬ (s.reversePending = true ∧
              s.rampTargetThrottle = 0) from fun hc => htz hc.2)]
          exact ⟨⟨hrt1, hrt2⟩, fun hz => absurd hz hrd0, rampOk_of_off rfl,
                 kickOk_of_off hknot, postKickOk_of_off hpknot, hF,
                 stageOk_of_none hstageN⟩
      · rw [if_neg hdone]
        by_cases hzz : smoothstepEasedThrottle s.rampStartThrottle
            s.rampTargetThrottle (now - s.rampStartMs) s.rampDurationMs = 0
        · rw [if_pos hzz]
          refine ⟨⟨hnt1, hnt2⟩, fun _ => hzz, ?_, kickOk_of_off hknot,
                 postKickOk_of_off hpknot, hF, stageOk_of_none hstageN⟩
          intro _
          exact ⟨hrd0, hrt1, hrt2, Or.inr ⟨rfl, hzz⟩⟩
        · rw [if_neg hzz]
          refine ⟨⟨hnt1, hnt2⟩, fun hz => absurd hz hrd0, ?_,
                 kickOk_of_off hknot, postKickOk_of_off hpknot, hF,
                 stageOk_of_none hstageN⟩
          intro _
          exact ⟨hrd0, hrt1, hrt2, Or.inl rfl⟩

end PMT

namespace PMT

theorem shouldKick_pos {b : Bool} {t : Int} {s : Sys}
    (h : shouldKickOnStart b t s = true) : 0 < s.cfgKickThrottle := by
  unfold shouldKickOnStart at h
  split_ifs at h with h1 h2 h3 h4
  all_goals try cases h
  push_neg at h3
  omega

theorem inv_setApplied (dir : Direction) (t : Int) {s : Sys}
    (hrmp : s.rampActive = false) (hkck : s.kickActive = false)
    (hpk : s.postKickPending = false) (hst : s.pendingStage = .NONE)
    (hpend : pendingOk s) (hdir : dir ≠ .STOP) :
    Inv (setApplied dir t s) := by
  unfold setApplied
  refine ⟨⟨clampI32_lb (by omega), clampI32_ub (by omega)⟩, ?_,
         rampOk_of_off hrmp, kickOk_of_off hkck, postKickOk_of_off hpk,
         hpend, stageOk_of_none hst⟩
  intro hz
  show clampI32 t 0 100 = 0
  by_cases he : clampI32 t 0 100 = 0
  · exact he
  · have hz' : (if clampI32 t 0 100 = 0 then Direction.STOP else dir)
        = Direction.STOP := hz
    rw [if_neg he] at hz'
    exact absurd hz' hdir

theorem inv_processPendingReverse (now : Nat) {s : Sys} (h : Inv s) :
    Inv (processPendingReverse now s) := by
  obtain ⟨⟨hA1, hA2⟩, hB, hC, hD, hE, hF, hG⟩ := h
  by_cases hrev : s.reversePending = true
  case neg =>
    rw [Bool.not_eq_true] at hrev
    simp only [processPendingReverse, hrev, Bool.not_false, if_true]
    exact ⟨⟨hA1, hA2⟩, hB, hC, hD, hE, hF, hG⟩
  case pos =>
    by_cases hst : s.pendingStage = PendingStage.WAIT_DIR_DELAY
    case neg =>
      simp only [processPendingReverse, hrev, Bool.not_true,
        Bool.false_eq_true, if_false, ne_eq, hst, not_false_eq_true, if_true]
      exact ⟨⟨hA1, hA2⟩, hB, hC, hD, hE, hF, hG⟩
    case pos =>
      obtain ⟨_, hap0, hcd0, hrmp, hkck⟩ := hG hst
      have hpknot : s.postKickPending = false := by
        cases hpk : s.postKickPending
        · rfl
        · exact absurd (hE hpk).1 (by simp [hkck])
      have hdirP : s.pendingFinalDirection ≠ .STOP := hF hrev
      by_cases htime : now < s.pendingStageUntilMs
      · simp only [processPendingReverse, hrev, Bool.not_true,
          Bool.false_eq_true, if_false, ne_eq, hst, not_true_eq_false,
          if_true, htime]
        exact ⟨⟨hA1, hA2⟩, hB, hC, hD, hE, hF, hG⟩
      · simp only [processPendingReverse, hrev, Bool.not_true,
          Bool.false_eq_true, if_false, ne_eq, hst, not_true_eq_false,
          if_true, htime]
        split_ifs with hkb hinst hmom
        · apply inv_beginKick
          · exact ⟨⟨hA1, hA2⟩, hB, rampOk_of_off hrmp, kickOk_of_off hkck,
                   postKickOk_of_off hpknot, fun _ => hdirP,
                   stageOk_of_none rfl⟩
          · exact hrmp
          · rfl
          · exact hdirP
          · exact shouldKick_pos hkb.2
        · rw [inv_applyPwm]
          exact inv_setApplied _ _ hrmp hkck hpknot rfl
            (pendingOk_of_off rfl) hdirP
        · apply inv_startRamp
          · exact ⟨⟨hA1, hA2⟩, hB, rampOk_of_off hrmp, kickOk_of_off hkck,
                   postKickOk_of_off hpknot, pendingOk_of_off rfl,
                   stageOk_of_none rfl⟩
          · intro hd; exact absurd hd hdirP
          · intro hw
            exact absurd (show PendingStage.NONE =
              PendingStage.WAIT_DIR_DELAY from hw) (by simp)
        · rw [inv_applyPwm]
          exact inv_setApplied _ _ hrmp hkck hpknot rfl
            (pendingOk_of_off rfl) hdirP

theorem inv_executeInstant (dir : Direction) (thr : Int) (now : Nat) {s : Sys}
    (h : Inv s) (hdir : dir ≠ .STOP) :
    Inv (executeInstant dir thr now s) := by
  have h1 : Inv (setTarget dir (clampI32 thr 0 100)
      (cancelAllMotionActivities (cancelPendingReverse s))) :=
    (inv_setTarget _ _ _).mpr (inv_cancelAll (inv_cancelPendingReverse h))
  obtain ⟨⟨hA1, hA2⟩, hB, hC, hD, hE, hF, hG⟩ := h1
  simp only [executeInstant, decide_eq_true_eq]
  split_ifs with h0 hrevdir hkick
  · exact inv_stopMotorNow _
  · exact inv_executeStopRamp _ _
      ⟨⟨hA1, hA2⟩, hB, hC, hD, hE, fun _ => hdir, stageOk_of_none rfl⟩
  · apply inv_beginKick
    · exact ⟨⟨hA1, hA2⟩, hB, hC, hD, hE, hF, hG⟩
    · rfl
    · rfl
    · exact hdir
    · exact shouldKick_pos hkick
  · rw [inv_applyPwm]
    exact inv_setApplied _ _ rfl rfl rfl rfl hF hdir

theorem inv_executeRampedMove (dir : Direction) (thr : Int)
    (am dm : Nat) (kind : RampKind) (now : Nat) {s : Sys}
    (h : Inv s) (hdir : dir ≠ .STOP) :
    Inv (executeRampedMove dir thr am dm kind now s) := by
  have h1 : Inv (setTarget dir (clampI32 thr 0 100)
      (cancelAllMotionActivities (cancelPendingReverse s))) :=
    (inv_setTarget _ _ _).mpr (inv_cancelAll (inv_cancelPendingReverse h))
  obtain ⟨⟨hA1, hA2⟩, hB, hC, hD, hE, hF, hG⟩ := h1
  simp only [executeRampedMove, decide_eq_true_eq]
  set S := setTarget dir (clampI32 thr 0 100)
      (cancelAllMotionActivities (cancelPendingReverse s)) with hS
  by_cases h0 : clampI32 thr 0 100 = 0
  · rw [if_pos h0]
    exact inv_executeStopRamp _ _ ⟨⟨hA1, hA2⟩, hB, hC, hD, hE, hF, hG⟩
  rw [if_neg h0]
  by_cases hrevdir : S.currentDirection ≠ Direction.STOP ∧
      S.currentDirection ≠ dir
  · rw [if_pos hrevdir]
    exact inv_executeStopRamp _ _
      ⟨⟨hA1, hA2⟩, hB, hC, hD, hE, fun _ => hdir, stageOk_of_none rfl⟩
  rw [if_neg hrevdir]
  by_cases hfs : S.appliedThrottle = 0 ∧ S.currentDirection = Direction.STOP
  · rw [if_pos hfs]
    split_ifs with hk h5 h6
    · apply inv_beginKick
      · exact ⟨⟨hA1, hA2⟩, fun hz => absurd hz hdir, rampOk_of_off rfl,
               kickOk_of_off rfl, postKickOk_of_off rfl,
               pendingOk_of_off rfl, stageOk_of_none rfl⟩
      · rfl
      · rfl
      · exact hdir
      · exact shouldKick_pos hk
    · rw [inv_applyPwm]
      exact ⟨⟨hA1, hA2⟩, fun hz => absurd hz hdir, rampOk_of_off rfl,
             kickOk_of_off rfl, postKickOk_of_off rfl,
             pendingOk_of_off rfl, stageOk_of_none rfl⟩
    · apply inv_startRamp
      · exact ⟨⟨hA1, hA2⟩, fun hz => absurd hz hdir, rampOk_of_off rfl,
               kickOk_of_off rfl, postKickOk_of_off rfl,
               pendingOk_of_off rfl, stageOk_of_none rfl⟩
      · intro hd; exact absurd hd hdir
      · intro hw
        exact absurd (show PendingStage.NONE =
          PendingStage.WAIT_DIR_DELAY from hw) (by simp)
    · apply inv_startRamp
      · exact ⟨⟨hA1, hA2⟩, fun hz => absurd hz hdir, rampOk_of_off rfl,
               kickOk_of_off rfl, postKickOk_of_off rfl,
               pendingOk_of_off rfl, stageOk_of_none rfl⟩
      · intro hd; exact absurd hd hdir
      · intro hw
        exact absurd (show PendingStage.NONE =
          PendingStage.WAIT_DIR_DELAY from hw) (by simp)
  · rw [if_neg hfs]
    split_ifs with hk h5 h6
    · apply inv_beginKick
      · exact ⟨⟨hA1, hA2⟩, hB, rampOk_of_off rfl, kickOk_of_off rfl,
               postKickOk_of_off rfl, pendingOk_of_off rfl,
               stageOk_of_none rfl⟩
      · rfl
      · rfl
      · exact hdir
      · exact shouldKick_pos hk
    · rw [inv_applyPwm]
      exact ⟨⟨hA1, hA2⟩, hB, rampOk_of_off rfl, kickOk_of_off rfl,
             postKickOk_of_off rfl, pendingOk_of_off rfl,
             stageOk_of_none rfl⟩
    · apply inv_startRamp
      · exact ⟨⟨hA1, hA2⟩, hB, rampOk_of_off rfl, kickOk_of_off rfl,
               postKickOk_of_off rfl, pendingOk_of_off rfl,
               stageOk_of_none rfl⟩
      · intro hd; exact absurd hd hdir
      · intro hw
        exact absurd (show PendingStage.NONE =
          PendingStage.WAIT_DIR_DELAY from hw) (by simp)
    · apply inv_startRamp
      · exact ⟨⟨hA1, hA2⟩, hB, rampOk_of_off rfl, kickOk_of_off rfl,
               postKickOk_of_off rfl, pendingOk_of_off rfl,
               stageOk_of_none rfl⟩
      · intro hd; exact absurd hd hdir
      · intro hw
        exact absurd (show PendingStage.NONE =
          PendingStage.WAIT_DIR_DELAY from hw) (by simp)

end PMT

namespace PMT

theorem inv_executeMomentum (dir : Direction) (thr : Int) (now : Nat)
    {s : Sys} (h : Inv s) (hdir : dir ≠ .STOP) :
    Inv (executeMomentum dir thr now s) :=
  inv_executeRampedMove _ _ _ _ _ _ h hdir

theorem inv_executeQuickRamp (dir : Direction) (thr : Int) (now : Nat)
    {s : Sys} (h : Inv s) (hdir : dir ≠ .STOP) :
    Inv (executeQuickRamp dir thr now s) :=
  inv_executeRampedMove _ _ _ _ _ _ h hdir

theorem inv_handleM (p o : Str) {s : Sys} (h : Inv s) :
    Inv (handleM p o s).1 := by
  unfold handleM
  dsimp only []
  split_ifs <;> exact h

theorem inv_handleK (p o : Str) {s : Sys} (h : Inv s) :
    Inv (handleK p o s).1 := by
  unfold handleK
  dsimp only []
  split_ifs <;> exact h

theorem inv_handleStop (p : Str) (kind : RampKind) (now : Nat) {s : Sys}
    (h : Inv s) : Inv (handleStop p kind now s).1 := by
  unfold handleStop
  split_ifs
  · exact inv_stopMotorNow _
  · exact inv_executeStopRamp _ _ h

theorem inv_handleQuickRamp (p o u : Str) (now : Nat) {s : Sys}
    (h : Inv s) : Inv (handleQuickRamp p o u now s).1 := by
  unfold handleQuickRamp
  dsimp only []
  split_ifs
  · exact h
  · exact inv_stopMotorNow _
  · exact inv_executeQuickRamp _ _ _ h (by simp)
  · exact inv_executeQuickRamp _ _ _ h (by simp)
  · exact inv_executeQuickRamp _ _ _ h (by simp)
  · exact inv_executeQuickRamp _ _ _ h (by simp)

theorem inv_handleMomentum (p o u : Str) (now : Nat) {s : Sys}
    (h : Inv s) : Inv (handleMomentum p o u now s).1 := by
  unfold handleMomentum
  dsimp only []
  split_ifs
  · exact h
  · exact h
  · exact inv_stopMotorNow _
  · exact inv_executeMomentum _ _ _ h (by simp)
  · exact inv_executeMomentum _ _ _ h (by simp)
  · exact inv_executeMomentum _ _ _ h (by simp)
  · exact inv_executeMomentum _ _ _ h (by simp)

theorem inv_onWrite (raw : Str) (now : Nat) {s : Sys} (h : Inv s) :
    Inv (onWrite raw now s).1 := by
  unfold onWrite
  dsimp only []
  by_cases c0 : raw.isEmpty = true
  · rw [if_pos c0]; exact h
  rw [if_neg c0]
  by_cases e0 : upperS (normalizeCmd raw) = str "?"
  · rw [if_pos e0]; exact h
  rw [if_neg e0]
  by_cases e1 : upperS (normalizeCmd raw) = str "??"
  · rw [if_pos e1]; exact h
  rw [if_neg e1]
  by_cases e2 : upperS (normalizeCmd raw) = str "V"
  · rw [if_pos e2]; exact h
  rw [if_neg e2]
  by_cases e3 : upperS (normalizeCmd raw) = str "G"
  · rw [if_pos e3]; exact h
  rw [if_neg e3]
  by_cases e4 : upperS (normalizeCmd raw) = str "D1"
  · rw [if_pos e4]; exact h
  rw [if_neg e4]
  by_cases e5 : upperS (normalizeCmd raw) = str "D0"
  · rw [if_pos e5]; exact h
  rw [if_neg e5]
  by_cases e6 : upperS (normalizeCmd raw) = str "P0"
  · rw [if_pos e6]; exact h
  rw [if_neg e6]
  by_cases e7 : upperS (normalizeCmd raw) = str "P1"
  · rw [if_pos e7]; exact h
  rw [if_neg e7]
  by_cases m0 : startsWithS (upperS (normalizeCmd raw)) (str "M") = true
  · rw [if_pos m0]; exact inv_handleM _ _ h
  rw [if_neg m0]
  by_cases k0 : startsWithS (upperS (normalizeCmd raw)) (str "K") = true
  · rw [if_pos k0]; exact inv_handleK _ _ h
  rw [if_neg k0]
  by_cases s0 : upperS (normalizeCmd raw) = str "S"
  · rw [if_pos s0]; exact inv_handleStop _ _ _ h
  rw [if_neg s0]
  by_cases b0 : upperS (normalizeCmd raw) = str "B"
  · rw [if_pos b0]; exact inv_handleStop _ _ _ h
  rw [if_neg b0]
  by_cases q0 : startsWithS (upperS (normalizeCmd raw)) (str "FQ") = true ∨ startsWithS (upperS (normalizeCmd raw)) (str "RQ") = true
  · rw [if_pos q0]; exact inv_handleQuickRamp _ _ _ _ h
  rw [if_neg q0]
  by_cases f0 : startsWithS (upperS (normalizeCmd raw)) (str "F") = true ∨ startsWithS (upperS (normalizeCmd raw)) (str "R") = true
  · rw [if_pos f0]; exact inv_handleMomentum _ _ _ _ h
  rw [if_neg f0]
  exact h

theorem inv_initialState : Inv initialState := by decide

end PMT

namespace PMT

theorem inv_processBleGrace (now : Nat) {s : Sys} (h : Inv s) :
    Inv (processBleGrace now s) := by
  obtain ⟨⟨hA1, hA2⟩, hB, hC, hD, hE, hF, hG⟩ := h
  by_cases hg : s.graceActive = true
  case neg =>
    rw [Bool.not_eq_true] at hg
    simp only [processBleGrace, hg, Bool.not_false, if_true]
    exact ⟨⟨hA1, hA2⟩, hB, hC, hD, hE, hF, hG⟩
  case pos =>
    simp only [processBleGrace, hg, Bool.not_true, Bool.false_eq_true,
      if_false]
    by_cases ht : BLE_GRACE_MS ≤ now - s.disconnectMs
    · rw [if_pos ht]
      exact inv_executeStopRamp _ _ ⟨⟨hA1, hA2⟩, hB, hC, hD, hE, hF, hG⟩
    · rw [if_neg ht]
      exact ⟨⟨hA1, hA2⟩, hB, hC, hD, hE, hF, hG⟩

theorem inv_loopTick (now : Nat) {s : Sys} (h : Inv s) :
    Inv (loopTick now s) := by
  have h4 := inv_processPendingReverse now (inv_processRamp now
    (inv_processKick now (inv_processBleGrace now h)))
  obtain ⟨⟨hA1, hA2⟩, hB, hC, hD, hE, hF, hG⟩ := h4
  simp only [loopTick]
  split_ifs with hidle hz
  · obtain ⟨hi1, hi2⟩ := hidle
    have hr4 : (processPendingReverse now (processRamp now (processKick now
        (processBleGrace now s)))).rampActive = false := by
      revert hi1
      cases (processPendingReverse now (processRamp now (processKick now
        (processBleGrace now s)))).rampActive <;> simp
    have hk4 : (processPendingReverse now (processRamp now (processKick now
        (processBleGrace now s)))).kickActive = false := by
      revert hi2
      cases (processPendingReverse now (processRamp now (processKick now
        (processBleGrace now s)))).kickActive <;> simp
    rw [inv_applyPwm]
    refine ⟨⟨hA1, hA2⟩, fun _ => hz, rampOk_of_off hr4, kickOk_of_off hk4,
           hE, hF, ?_⟩
    intro hw
    obtain ⟨rv, ap, _, rm, kc⟩ := hG hw
    exact ⟨rv, ap, rfl, rm, kc⟩
  · rw [inv_applyPwm]
    exact ⟨⟨hA1, hA2⟩, hB, hC, hD, hE, hF, hG⟩
  · exact ⟨⟨hA1, hA2⟩, hB, hC, hD, hE, hF, hG⟩

theorem inv_onConnect {s : Sys} (h : Inv s) : Inv (onConnect s) := h

theorem inv_onDisconnect (now : Nat) {s : Sys} (h : Inv s) :
    Inv (onDisconnect now s) := h

/-- The engine invariant holds in every reachable state of the firmware. -/
theorem reachable_inv {s : Sys} (h : Reachable s) : Inv s := by
  induction h with
  | init => exact inv_initialState
  | tick now hr ih => exact inv_loopTick now ih
  | write raw now hr ih => exact inv_onWrite raw now ih
  | connect hr ih => exact inv_onConnect ih
  | disconnect now hr ih => exact inv_onDisconnect now ih

end PMT

namespace PMT

/-! ## Claim C9: the easing formula and the duration floor -/

theorem toInt32_eq_of_lt {n : Nat} (h : n < 2147483648) : toInt32 n = n := by
  unfold toInt32
  have hm : n % 4294967296 = n := Nat.mod_eq_of_lt (by omega)
  rw [hm, if_pos (by exact_mod_cast h)]

/-- C9 counterexample: at `elapsed = 2147484 ms`, `duration = 1 ms` the
progress quotient `2147484000` overflows the `(int32_t)` cast at source line
748 and wraps negative, so the code returns the start value 0 while the
specified formula yields the end value 100. -/
theorem C9_counterexample :
    smoothstepEasedThrottle 0 100 2147484 1 = 0 ∧
    easeClaim 0 100 2147484 1 = 100 := by
  constructor <;> decide

/-- C9 (amended): whenever the progress quotient `elapsed*1000/duration`
fits in `int32_t` - in particular for every elapsed time up to
`2147483 ms` (≈ 35.8 minutes), which covers every ramp the firmware can
run between ticks - `smoothstepEasedThrottle` computes exactly the
specified fixed-point smoothstep value, and `durationMs = 0` returns the
end value immediately; and every non-zero (positive) throttle delta yields
a scaled ramp duration of at least 1 ms. -/
theorem C9_amended :
    (∀ (a b : Int) (e d : Nat), e * 1000 / d < 2147483648 →
       smoothstepEasedThrottle a b e d = easeClaim a b e d) ∧
    (∀ (full : Nat) (delta : Int), 0 < delta →
       1 ≤ scaledDurationMs full delta) := by
  constructor
  · intro a b e d hq
    unfold smoothstepEasedThrottle easeClaim
    by_cases hd : d = 0
    · rw [if_pos hd, if_pos hd]
    · rw [if_neg hd, if_neg hd, toInt32_eq_of_lt hq]
  · intro full delta hpos
    unfold scaledDurationMs
    have hc := clampI32_pos hpos
    dsimp only []
    split_ifs with h
    · omega
    · rw [not_and_or] at h
      rcases h with h | h
      · exact absurd hc (by omega)
      · omega

/-- C9 witness: the amended theorem evaluated at concrete inputs:
half-way through a 0→100 ramp of 1000 ms the eased value is 50, and a
delta of 1 at the momentum full-scale still yields a 200 ms ≥ 1 ms
duration. -/
theorem C9_amended_witness :
    (500 * 1000 / 1000 < 2147483648 ∧
      smoothstepEasedThrottle 0 100 500 1000 = easeClaim 0 100 500 1000 ∧
      smoothstepEasedThrottle 0 100 500 1000 = 50) ∧
    ((0:Int) < 1 ∧ 1 ≤ scaledDurationMs FULL_MOMENTUM_ACCEL_MS 1) :=
  ⟨⟨by decide, C9_amended.1 0 100 500 1000 (by decide), by decide⟩,
   ⟨by decide, C9_amended.2 FULL_MOMENTUM_ACCEL_MS 1 (by decide)⟩⟩

end PMT

namespace PMT

/-! ## Command-string toolkit: behaviour of the parser helpers on
well-formed command text -/

theorem dropWhile_eq_self_of_all {p : Char → Bool} {l : Str}
    (h : ∀ c ∈ l, p c = false) : l.dropWhile p = l := by
  cases l with
  | nil => rfl
  | cons a as => simp [List.dropWhile, h a (List.mem_cons_self a as)]

theorem trimS_eq_self {l : Str} (h : ∀ c ∈ l, isSpaceCh c = false) :
    trimS l = l := by
  unfold trimS
  rw [dropWhile_eq_self_of_all h,
      dropWhile_eq_self_of_all (fun c hc => h c (List.mem_reverse.mp hc)),
      List.reverse_reverse]

theorem normalizeCmd_eq_self {l : Str}
    (h : ∀ c ∈ l, isSpaceCh c = false) : normalizeCmd l = l := by
  unfold normalizeCmd
  rw [trimS_eq_self h]
  rw [List.filter_eq_self.mpr]
  intro c hc
  rw [decide_eq_true_eq]
  have hs := h c hc
  unfold isSpaceCh at hs
  rw [decide_eq_false_iff_not] at hs
  rintro (rfl | rfl)
  · exact hs (by tauto)
  · exact hs (by tauto)

theorem isDigitCh_bounds {c : Char} (h : isDigitCh c = true) :
    48 ≤ c.toNat ∧ c.toNat ≤ 57 := by
  unfold isDigitCh at h
  exact of_decide_eq_true h

theorem digit_not_space {c : Char} (h : isDigitCh c = true) :
    isSpaceCh c = false := by
  have hb := isDigitCh_bounds h
  unfold isSpaceCh
  rw [decide_eq_false_iff_not]
  rintro (rfl | rfl | rfl | rfl | rfl | rfl) <;> revert hb <;> decide

theorem upChar_digit {c : Char} (h : isDigitCh c = true) : upChar c = c := by
  have hb := isDigitCh_bounds h
  unfold upChar
  rw [if_neg]
  omega

theorem upperS_eq_self {l : Str} (h : ∀ c ∈ l, upChar c = c) :
    upperS l = l := by
  unfold upperS
  induction l with
  | nil => rfl
  | cons a as ih =>
      rw [List.map_cons, h a (List.mem_cons_self a as),
          ih (fun c hc => h c (List.mem_cons_of_mem a hc))]

theorem digit_ne_comma {c : Char} (h : isDigitCh c = true) : c ≠ ',' := by
  have hb := isDigitCh_bounds h
  rintro rfl
  revert hb
  decide

theorem isDigitStr_all {l : Str} (h : isDigitStr l = true) :
    ∀ c ∈ l, isDigitCh c = true := by
  unfold isDigitStr at h
  rw [Bool.and_eq_true] at h
  exact fun c hc => List.all_eq_true.mp h.2 c hc

theorem isDigitStr_ne_nil {l : Str} (h : isDigitStr l = true) : l ≠ [] := by
  unfold isDigitStr at h
  rw [Bool.and_eq_true] at h
  intro hl
  rw [hl] at h
  exact absurd h.1 (by decide)

theorem splitComma_ne_nil (l : Str) : splitComma l ≠ [] := by
  cases l with
  | nil => simp [splitComma]
  | cons a as =>
      unfold splitComma
      split_ifs
      · simp
      · cases h : splitComma as <;> simp

theorem splitComma_no_comma {l : Str} (h : ∀ c ∈ l, c ≠ ',') :
    splitComma l = [l] := by
  induction l with
  | nil => rfl
  | cons a as ih =>
      unfold splitComma
      rw [if_neg (h a (List.mem_cons_self a as))]
      rw [ih (fun c hc => h c (List.mem_cons_of_mem a hc))]

theorem splitComma_append {t rest : Str} (h : ∀ c ∈ t, c ≠ ',') :
    splitComma (t ++ ',' :: rest) = t :: splitComma rest := by
  induction t with
  | nil =>
      show splitComma (',' :: rest) = [] :: splitComma rest
      rw [splitComma, if_pos rfl]
  | cons a as ih =>
      show splitComma (a :: (as ++ ',' :: rest)) = _
      rw [splitComma, if_neg (h a (List.mem_cons_self a as))]
      rw [ih (fun c hc => h c (List.mem_cons_of_mem a hc))]

end PMT
namespace PMT

theorem strLit_q : str "?" = ['?'] := rfl
theorem strLit_qq : str "??" = ['?', '?'] := rfl
theorem strLit_v : str "V" = ['V'] := rfl
theorem strLit_g : str "G" = ['G'] := rfl
theorem strLit_d1 : str "D1" = ['D', '1'] := rfl
theorem strLit_d0 : str "D0" = ['D', '0'] := rfl
theorem strLit_p0 : str "P0" = ['P', '0'] := rfl
theorem strLit_p1 : str "P1" = ['P', '1'] := rfl
theorem strLit_m : str "M" = ['M'] := rfl
theorem strLit_k : str "K" = ['K'] := rfl
theorem strLit_s : str "S" = ['S'] := rfl
theorem strLit_b : str "B" = ['B'] := rfl
theorem strLit_fq : str "FQ" = ['F', 'Q'] := rfl
theorem strLit_rq : str "RQ" = ['R', 'Q'] := rfl
theorem strLit_f : str "F" = ['F'] := rfl
theorem strLit_r : str "R" = ['R'] := rfl

theorem ne_str_of_head {a b : Char} {l bs : Str} (h : a ≠ b) :
    a :: l ≠ b :: bs := fun hE => by
  injection hE with h1 _
  exact h h1

theorem startsWith_one {a b : Char} {l : Str} :
    startsWithS (a :: l) [b] = (b == a) := by
  simp [startsWithS, List.isPrefixOf]

theorem startsWith_two {a b c : Char} {l : Str} :
    startsWithS (a :: l) [b, c] = ((b == a) && startsWithS l [c]) := by
  simp [startsWithS, List.isPrefixOf]

theorem digit_head_ne {l : Str} {q : Char} (h : isDigitStr l = true)
    (hq : 48 ≤ q.toNat → 57 < q.toNat) : startsWithS l [q] = false := by
  cases l with
  | nil => exact absurd rfl (isDigitStr_ne_nil h)
  | cons a as =>
      rw [startsWith_one]
      have hb := isDigitCh_bounds (isDigitStr_all h a (List.mem_cons_self a as))
      rw [beq_eq_false_iff_ne]
      rintro rfl
      exact absurd hb (by omega)

/-- Dispatch of a well-formed two-argument kick command `K<t>,<ms>`:
it reaches the `K` handler and commits the two arguments together with the
fixed defaults `kickRampDownMs = 80`, `kickMaxApply = 15`. -/
theorem onWrite_K (t ms : Str) (now : Nat) (s : Sys)
    (ht : isDigitStr t = true) (hms : isDigitStr ms = true) :
    onWrite ('K' :: (t ++ ',' :: ms)) now s =
      ({ s with cfgKickThrottle := clampI32 (digitsToInt t) 0 100,
                cfgKickMs := clampI32 (digitsToInt ms) 0 2000,
                cfgKickRampDownMs := 80, cfgKickMaxApply := 15 },
       [ackMsg ('K' :: (t ++ ',' :: ms))]) := by
  have hallt := isDigitStr_all ht
  have hallm := isDigitStr_all hms
  have hbody : ∀ c ∈ (t ++ ',' :: ms), isSpaceCh c = false ∧ upChar c = c := by
    intro c hc
    rcases List.mem_append.mp hc with hc | hc
    · exact ⟨digit_not_space (hallt c hc), upChar_digit (hallt c hc)⟩
    rcases List.mem_cons.mp hc with rfl | hc
    · exact ⟨by decide, by decide⟩
    · exact ⟨digit_not_space (hallm c hc), upChar_digit (hallm c hc)⟩
  have hchars : ∀ c ∈ ('K' :: (t ++ ',' :: ms)), isSpaceCh c = false := by
    intro c hc
    rcases List.mem_cons.mp hc with rfl | hc
    · decide
    · exact (hbody c hc).1
  have hupper : upperS ('K' :: (t ++ ',' :: ms)) = 'K' :: (t ++ ',' :: ms) := by
    apply upperS_eq_self
    intro c hc
    rcases List.mem_cons.mp hc with rfl | hc
    · decide
    · exact (hbody c hc).2
  unfold onWrite
  dsimp only []
  rw [normalizeCmd_eq_self hchars, hupper]
  rw [if_neg (by simp : ¬ (List.isEmpty ('K' :: (t ++ ',' :: ms)) = true))]
  rw [strLit_q, strLit_qq, strLit_v, strLit_g, strLit_d1, strLit_d0,
      strLit_p0, strLit_p1, strLit_m, strLit_k]
  rw [if_neg (ne_str_of_head (by decide)), if_neg (ne_str_of_head (by decide)),
      if_neg (ne_str_of_head (by decide)), if_neg (ne_str_of_head (by decide)),
      if_neg (ne_str_of_head (by decide)), if_neg (ne_str_of_head (by decide)),
      if_neg (ne_str_of_head (by decide)), if_neg (ne_str_of_head (by decide))]
  rw [startsWith_one, if_neg (by decide : ¬ (('M' == 'K') = true))]
  rw [startsWith_one, if_pos (by decide : (('K' == 'K') = true))]
  unfold handleK
  dsimp only []
  have hdrop : List.drop 1 ('K' :: (t ++ ',' :: ms)) = t ++ ',' :: ms := rfl
  rw [hdrop, trimS_eq_self (fun c hc => (hbody c hc).1)]
  have hsplit : splitComma (t ++ ',' :: ms) = [t, ms] := by
    rw [splitComma_append (fun c hc => digit_ne_comma (hallt c hc)),
        splitComma_no_comma (fun c hc => digit_ne_comma (hallm c hc))]
  rw [show kickTokenCount (t ++ ',' :: ms) = 2 from by
        unfold kickTokenCount; rw [hsplit]; rfl]
  rw [show kickTokens (t ++ ',' :: ms) = [t, ms] from by
        unfold kickTokens
        rw [hsplit]
        show [trimS t, trimS ms] = [t, ms]
        rw [trimS_eq_self (fun c hc => digit_not_space (hallt c hc)),
            trimS_eq_self (fun c hc => digit_not_space (hallm c hc))]]
  rw [if_neg (by decide : ¬ ((2:Nat) ≠ 2 ∧ (2:Nat) ≠ 4))]
  rw [show ([t, ms].getD 0 [] : Str) = t from rfl,
      show ([t, ms].getD 1 [] : Str) = ms from rfl]
  rw [ht, hms]
  rw [if_neg (by decide : ¬ (((!true) = true) ∨ ((!true) = true)))]
  rw [if_neg (by decide : ¬ ((2:Nat) = 4))]

end PMT

namespace PMT

/-- C10: a valid 2-argument `K<t>,<ms>` command sets `cfgKickThrottle` and
`cfgKickMs` from its arguments and, in the same update, unconditionally resets
`cfgKickRampDownMs` to 80 and `cfgKickMaxApply` to 15, discarding whatever a
previous 4-argument `K` command configured there (the state `s` is arbitrary,
so in particular its previous `rd`/`max` values are arbitrary). -/
theorem C10 (t ms : Str) (now : Nat) (s : Sys)
    (ht : isDigitStr t = true) (hms : isDigitStr ms = true) :
    onWrite ('K' :: (t ++ ',' :: ms)) now s =
      ({ s with cfgKickThrottle := clampI32 (digitsToInt t) 0 100,
                cfgKickMs := clampI32 (digitsToInt ms) 0 2000,
                cfgKickRampDownMs := 80, cfgKickMaxApply := 15 },
       [ackMsg ('K' :: (t ++ ',' :: ms))]) :=
  onWrite_K t ms now s ht hms

/-- Witness for C10: after `K60,200,100,20` has configured rd=100/max=20, the
2-argument command `K10,300` resets rd to 80 and max to 15. -/
theorem C10_witness :
    isDigitStr (str "10") = true ∧ isDigitStr (str "300") = true ∧
    onWrite ('K' :: (str "10" ++ ',' :: str "300")) 0
        { cfgKickRampDownMs := 100, cfgKickMaxApply := 20 } =
      ({ cfgKickThrottle := 10, cfgKickMs := 300,
         cfgKickRampDownMs := 80, cfgKickMaxApply := 15 },
       [ackMsg ('K' :: (str "10" ++ ',' :: str "300"))]) :=
  ⟨by decide, by decide, by
    rw [C10 (str "10") (str "300") 0 _ (by decide) (by decide)]; decide⟩

/-- C5 (code bug): the malformed 4-argument kick command `K50,500,x,10`
(non-digit third token) is answered with `ERR:`, yet the first two
configuration fields have already been committed: `cfgKickThrottle` and
`cfgKickMs` change from 0 to 50 and 500.  The source validates tokens 2 and 3
only after assigning tokens 0 and 1 (lines 1263-1270), so an invalid extended
command does not leave the configuration unchanged. -/
theorem C5 :
    onWrite (str "K50,500,x,10") 0 initialState =
      ({ initialState with cfgKickThrottle := 50, cfgKickMs := 500 },
       [errMsg (str "K50,500,x,10")]) ∧
    initialState.cfgKickThrottle = 0 ∧ initialState.cfgKickMs = 0 := by
  decide

theorem startRamp_pending (dir : Direction) (st en : Int) (dur : Nat)
    (kind : RampKind) (now : Nat) (s : Sys) :
    (startRamp dir st en dur kind now s).reversePending = s.reversePending ∧
    (startRamp dir st en dur kind now s).pendingFinalDirection
      = s.pendingFinalDirection ∧
    (startRamp dir st en dur kind now s).pendingFinalTargetThrottle
      = s.pendingFinalTargetThrottle ∧
    (startRamp dir st en dur kind now s).pendingStage = s.pendingStage := by
  unfold startRamp cancelAllMotionActivities setApplied applyPwmOutputs
  dsimp only []
  by_cases h : dur = 0 ∨ clampI32 st 0 100 = clampI32 en 0 100
  · rw [if_pos h]
    exact ⟨rfl, rfl, rfl, rfl⟩
  · rw [if_neg h]
    exact ⟨rfl, rfl, rfl, rfl⟩

/-- C8: `startRamp` always clears the kick and the stored post-kick
continuation; any ramp active afterwards is the newly started one (its clock,
duration and kind are the caller's); and the pending-reverse flag and its
staged direction/throttle/stage all survive unchanged.  The final conjunct
instantiates this at `executeStopRamp`: a pending reverse survives every
stop-ramp. -/
theorem C8 (dir : Direction) (st en : Int) (dur : Nat) (kind : RampKind)
    (now : Nat) (s : Sys) :
    ((startRamp dir st en dur kind now s).kickActive = false ∧
     (startRamp dir st en dur kind now s).postKickPending = false ∧
     ((startRamp dir st en dur kind now s).rampActive = true →
       (startRamp dir st en dur kind now s).rampStartMs = now ∧
       (startRamp dir st en dur kind now s).rampDurationMs = dur ∧
       (startRamp dir st en dur kind now s).rampKind = kind) ∧
     (startRamp dir st en dur kind now s).reversePending = s.reversePending ∧
     (startRamp dir st en dur kind now s).pendingFinalDirection
       = s.pendingFinalDirection ∧
     (startRamp dir st en dur kind now s).pendingFinalTargetThrottle
       = s.pendingFinalTargetThrottle ∧
     (startRamp dir st en dur kind now s).pendingStage = s.pendingStage) ∧
    ((executeStopRamp kind now s).reversePending = s.reversePending ∧
     (executeStopRamp kind now s).pendingFinalDirection
       = s.pendingFinalDirection ∧
     (executeStopRamp kind now s).pendingFinalTargetThrottle
       = s.pendingFinalTargetThrottle) := by
  constructor
  · refine ⟨?_, ?_, ?_, (startRamp_pending dir st en dur kind now s).1,
      (startRamp_pending dir st en dur kind now s).2.1,
      (startRamp_pending dir st en dur kind now s).2.2.1,
      (startRamp_pending dir st en dur kind now s).2.2.2⟩ <;>
      unfold startRamp cancelAllMotionActivities setApplied applyPwmOutputs <;>
      dsimp only [] <;>
      by_cases h : dur = 0 ∨ clampI32 st 0 100 = clampI32 en 0 100
    · rw [if_pos h]
    · rw [if_neg h]
    · rw [if_pos h]
    · rw [if_neg h]
    · rw [if_pos h]
      exact fun hr => Bool.noConfusion hr
    · rw [if_neg h]
      exact fun _ => ⟨rfl, rfl, rfl⟩
  · unfold executeStopRamp
    dsimp only []
    exact ⟨((startRamp_pending _ _ _ _ _ _ _).1).trans rfl,
           ((startRamp_pending _ _ _ _ _ _ _).2.1).trans rfl,
           ((startRamp_pending _ _ _ _ _ _ _).2.2.1).trans rfl⟩

/-- Witness for C8 at a concrete ramp start over a state with a pending
reverse and an active kick. -/
theorem C8_witness :
    (startRamp Direction.FWD 0 50 1000 RampKind.MOMENTUM 5
      { reversePending := true, kickActive := true,
        postKickPending := true }).kickActive = false ∧
    (startRamp Direction.FWD 0 50 1000 RampKind.MOMENTUM 5
      { reversePending := true, kickActive := true,
        postKickPending := true }).reversePending = true :=
  ⟨(C8 Direction.FWD 0 50 1000 RampKind.MOMENTUM 5
      { reversePending := true, kickActive := true,
        postKickPending := true }).1.1,
   (C8 Direction.FWD 0 50 1000 RampKind.MOMENTUM 5
      { reversePending := true, kickActive := true,
        postKickPending := true }).1.2.2.2.1⟩

end PMT
namespace PMT

theorem startRamp_clearsKick (dir : Direction) (st en : Int) (dur : Nat)
    (kind : RampKind) (now : Nat) (s : Sys) :
    (startRamp dir st en dur kind now s).kickActive = false ∧
    (startRamp dir st en dur kind now s).postKickPending = false := by
  unfold startRamp cancelAllMotionActivities setApplied applyPwmOutputs
  dsimp only []
  by_cases h : dur = 0 ∨ clampI32 st 0 100 = clampI32 en 0 100
  · rw [if_pos h]
    exact ⟨rfl, rfl⟩
  · rw [if_neg h]
    exact ⟨rfl, rfl⟩

theorem executeStopRamp_clearsKick (kind : RampKind) (now : Nat) (s : Sys) :
    (executeStopRamp kind now s).kickActive = false ∧
    (executeStopRamp kind now s).postKickPending = false := by
  unfold executeStopRamp
  dsimp only []
  exact startRamp_clearsKick _ _ _ _ _ _ _

theorem executeStopRamp_pending (kind : RampKind) (now : Nat) (s : Sys) :
    (executeStopRamp kind now s).reversePending = s.reversePending := by
  unfold executeStopRamp
  dsimp only []
  exact ((startRamp_pending _ _ _ _ _ _ _).1).trans rfl

theorem processBleGrace_pres (m : Nat) (s : Sys) (hk : s.kickActive = false)
    (hp : s.reversePending = false) :
    (processBleGrace m s).kickActive = false ∧
    (processBleGrace m s).reversePending = false := by
  unfold processBleGrace
  dsimp only []
  by_cases h1 : s.graceActive = false
  · rw [h1, if_pos (by decide)]
    exact ⟨hk, hp⟩
  · rw [eq_true_of_ne_false h1, if_neg (by decide)]
    by_cases h2 : BLE_GRACE_MS ≤ m - s.disconnectMs
    · rw [if_pos h2]
      exact ⟨(executeStopRamp_clearsKick _ _ _).1,
             (executeStopRamp_pending _ _ _).trans hp⟩
    · rw [if_neg h2]
      exact ⟨hk, hp⟩

theorem processKick_id (m : Nat) (s : Sys) (hk : s.kickActive = false) :
    processKick m s = s := by
  unfold processKick
  rw [hk, if_pos (by decide)]

theorem processPendingReverse_id (m : Nat) (s : Sys)
    (hp : s.reversePending = false) :
    processPendingReverse m s = s := by
  unfold processPendingReverse
  rw [hp, if_pos (by decide)]

theorem processRamp_pres (m : Nat) (s : Sys) (hk : s.kickActive = false)
    (hp : s.reversePending = false) :
    (processRamp m s).kickActive = false ∧
    (processRamp m s).reversePending = false := by
  unfold processRamp setApplied applyPwmOutputs
  dsimp only []
  by_cases h1 : s.rampActive = false
  · rw [h1, if_pos (by decide)]
    exact ⟨hk, hp⟩
  rw [eq_true_of_ne_false h1, if_neg (by decide)]
  by_cases h2 : s.rampTargetThrottle = 0 ∧
      smoothstepEasedThrottle s.rampStartThrottle s.rampTargetThrottle
        (m - s.rampStartMs) s.rampDurationMs = 0
  · rw [if_pos h2]
    dsimp only []
    by_cases h3 : s.rampDurationMs ≤ m - s.rampStartMs
    · rw [if_pos h3]
      by_cases h4 : s.rampTargetThrottle = 0
      · rw [if_pos h4]
        rw [hp]
        rw [if_neg (by simp)]
        exact ⟨hk, rfl⟩
      · rw [if_neg h4]
        rw [hp]
        rw [if_neg (by simp)]
        exact ⟨hk, rfl⟩
    · rw [if_neg h3]
      exact ⟨hk, hp⟩
  · rw [if_neg h2]
    dsimp only []
    by_cases h3 : s.rampDurationMs ≤ m - s.rampStartMs
    · rw [if_pos h3]
      by_cases h4 : s.rampTargetThrottle = 0
      · rw [if_pos h4]
        rw [hp]
        rw [if_neg (by simp)]
        exact ⟨hk, rfl⟩
      · rw [if_neg h4]
        rw [hp]
        rw [if_neg (by simp)]
        exact ⟨hk, rfl⟩
    · rw [if_neg h3]
      exact ⟨hk, hp⟩

theorem loopTick_no_kick (m : Nat) (u : Sys) (hk : u.kickActive = false)
    (hp : u.reversePending = false) :
    (loopTick m u).kickActive = false ∧
    (loopTick m u).reversePending = false := by
  unfold loopTick
  dsimp only []
  have hg := processBleGrace_pres m u hk hp
  rw [processKick_id m _ hg.1, processPendingReverse_id m _
    (processRamp_pres m _ hg.1 hg.2).2]
  have hr := processRamp_pres m (processBleGrace m u) hg.1 hg.2
  by_cases h1 : (!(processRamp m (processBleGrace m u)).rampActive) = true ∧
      (!(processRamp m (processBleGrace m u)).kickActive) = true
  · rw [if_pos h1]
    by_cases h2 : (processRamp m (processBleGrace m u)).appliedThrottle = 0
    · rw [if_pos h2]
      unfold applyPwmOutputs
      exact ⟨hr.1, hr.2⟩
    · rw [if_neg h2]
      unfold applyPwmOutputs
      exact ⟨hr.1, hr.2⟩
  · rw [if_neg h1]
    exact ⟨hr.1, hr.2⟩

end PMT

namespace PMT

theorem kick_hold_tick (m : Nat) (u : Sys) (hg : u.graceActive = false)
    (hk : u.kickActive = true) (hr : u.rampActive = false)
    (hp : u.reversePending = false) (hh0 : 0 < u.kickHoldThrottle)
    (hh1 : u.kickHoldThrottle ≤ 100) (hm : m < u.kickEndMs) :
    (loopTick m u).appliedThrottle = u.kickHoldThrottle ∧
    (loopTick m u).kickActive = true := by
  set w : Sys := setApplied u.kickDirection u.kickHoldThrottle u with hw
  set v : Sys := applyPwmOutputs w.currentDirection w.appliedThrottle w with hv
  have hva : v.appliedThrottle = clampI32 u.kickHoldThrottle 0 100 := by
    rw [hv, hw]
    rfl
  have hvk : v.kickActive = true := by rw [hv, hw]; exact hk
  have hvr : v.rampActive = false := by rw [hv, hw]; exact hr
  have hvp : v.reversePending = false := by rw [hv, hw]; exact hp
  have e1 : processBleGrace m u = u := by
    unfold processBleGrace
    rw [hg, if_pos (by decide)]
  have e2 : processKick m u = v := by
    unfold processKick
    rw [hk, if_neg (by decide), if_pos hm]
  have e3 : processRamp m v = v := by
    unfold processRamp
    rw [hvr, if_pos (by decide)]
  have e4 : processPendingReverse m v = v := by
    unfold processPendingReverse
    rw [hvp, if_pos (by decide)]
  unfold loopTick
  dsimp only []
  rw [e1, e2, e3, e4, hvr, hvk]
  rw [if_neg (by decide : ¬ (((!false) = true) ∧ ((!true) = true)))]
  exact ⟨hva.trans (clampI32_eq_self (le_of_lt hh0) hh1), hvk⟩

theorem shouldKick_true {t : Int} {s : Sys} (ht : 0 < t)
    (hkt : 0 < s.cfgKickThrottle) (hkm : 0 < s.cfgKickMs)
    (hmax : t ≤ s.cfgKickMaxApply) :
    shouldKickOnStart true t s = true := by
  unfold shouldKickOnStart
  rw [if_neg (by decide : ¬ ((!true) = true))]
  rw [if_neg (not_le.mpr ht)]
  rw [if_neg (by push_neg; exact ⟨hkt, hkm⟩)]
  rw [if_neg (not_lt.mpr hmax)]

theorem shouldKick_false_of_max {b : Bool} {t : Int} {s : Sys}
    (hmax : s.cfgKickMaxApply < t) :
    shouldKickOnStart b t s = false := by
  unfold shouldKickOnStart
  split_ifs <;> rfl

theorem eff_cfg (r : Int) (b : Bool) (s v : Sys)
    (hc : s.cfgMinStart = v.cfgMinStart) :
    effectiveStartTargetThrottle r b s = effectiveStartTargetThrottle r b v := by
  unfold effectiveStartTargetThrottle
  rw [hc]

theorem shouldKick_cfg (b : Bool) (t : Int) (s v : Sys)
    (h1 : s.cfgKickThrottle = v.cfgKickThrottle)
    (h2 : s.cfgKickMs = v.cfgKickMs)
    (h3 : s.cfgKickMaxApply = v.cfgKickMaxApply) :
    shouldKickOnStart b t s = shouldKickOnStart b t v := by
  unfold shouldKickOnStart
  rw [h1, h2, h3]

theorem eff_zero (b : Bool) (s : Sys) :
    effectiveStartTargetThrottle 0 b s = 0 := by
  unfold effectiveStartTargetThrottle
  dsimp only []
  by_cases hb : (!b) = true
  · rw [if_pos hb]
    try rfl
  · rw [if_neg hb]
    rw [if_neg (fun h => absurd h.2 (by decide))]
    try rfl

end PMT

namespace PMT

theorem executeRamped_kick (dir : Direction) (thr : Int) (am dm : Nat)
    (kind : RampKind) (now : Nat) (s : Sys)
    (h0 : s.appliedThrottle = 0) (hd : s.currentDirection = Direction.STOP)
    (ht : 0 < effectiveStartTargetThrottle (clampI32 thr 0 100) true s)
    (hmax : effectiveStartTargetThrottle (clampI32 thr 0 100) true s
      ≤ s.cfgKickMaxApply)
    (hkt : 0 < s.cfgKickThrottle) (hkm : 0 < s.cfgKickMs) :
    (executeRampedMove dir thr am dm kind now s).kickActive = true ∧
    (executeRampedMove dir thr am dm kind now s).kickDirection = dir ∧
    (executeRampedMove dir thr am dm kind now s).kickHoldThrottle
      = clampI32 (maxI s.cfgKickThrottle s.cfgMinStart) 0 100 ∧
    (executeRampedMove dir thr am dm kind now s).kickEndMs
      = now + s.cfgKickMs.toNat ∧
    (executeRampedMove dir thr am dm kind now s).appliedThrottle
      = clampI32 (maxI s.cfgKickThrottle s.cfgMinStart) 0 100 ∧
    (executeRampedMove dir thr am dm kind now s).postKickPending = true ∧
    (executeRampedMove dir thr am dm kind now s).postKickFinalThr
      = effectiveStartTargetThrottle (clampI32 thr 0 100) true s ∧
    (executeRampedMove dir thr am dm kind now s).postKickIsMomentum = true ∧
    (executeRampedMove dir thr am dm kind now s).rampActive = false ∧
    (executeRampedMove dir thr am dm kind now s).reversePending = false ∧
    (executeRampedMove dir thr am dm kind now s).graceActive = s.graceActive
    := by
  simp only [executeRampedMove, decide_eq_true_eq]
  set S := setTarget dir (clampI32 thr 0 100)
      (cancelAllMotionActivities (cancelPendingReverse s)) with hS
  have hSa : S.appliedThrottle = 0 := h0
  have hSd : S.currentDirection = Direction.STOP := hd
  have h00 : ¬ (clampI32 thr 0 100 = 0) := by
    intro hz
    rw [hz, eff_zero] at ht
    exact lt_irrefl 0 ht
  rw [if_neg h00]
  rw [if_neg (fun hc => absurd hSd hc.1)]
  rw [if_pos (⟨hSa, hSd⟩ : S.appliedThrottle = 0 ∧
      S.currentDirection = Direction.STOP)]
  rw [decide_eq_true (⟨hSa, hSd⟩ : S.appliedThrottle = 0 ∧
      S.currentDirection = Direction.STOP)]
  rw [eff_cfg (clampI32 thr 0 100) true S s rfl]
  split_ifs with hsk
  · simp only [beginKick, setApplied, applyPwmOutputs, setTarget]
    have hckt : S.cfgKickThrottle = s.cfgKickThrottle := rfl
    have hcms : S.cfgMinStart = s.cfgMinStart := rfl
    have hckm : S.cfgKickMs = s.cfgKickMs := rfl
    refine ⟨trivial, trivial, ?_, ?_, ?_, trivial, trivial, trivial, rfl,
      rfl, rfl⟩
    · rw [hckt, hcms]
    · rw [hckm]
    · rw [hckt, hcms]
      exact clampI32_idem _ (by decide)
  all_goals exact absurd (shouldKick_true ht hkt hkm hmax) (by assumption)

end PMT

namespace PMT

theorem executeRamped_nokick (dir : Direction) (thr : Int) (am dm : Nat)
    (kind : RampKind) (now : Nat) (s : Sys)
    (h0 : s.appliedThrottle = 0) (hd : s.currentDirection = Direction.STOP)
    (hge : 0 ≤ s.cfgKickMaxApply)
    (hmax : s.cfgKickMaxApply
      < effectiveStartTargetThrottle (clampI32 thr 0 100) true s) :
    (executeRampedMove dir thr am dm kind now s).kickActive = false ∧
    (executeRampedMove dir thr am dm kind now s).postKickPending = false ∧
    (executeRampedMove dir thr am dm kind now s).reversePending = false := by
  have ht : 0 < effectiveStartTargetThrottle (clampI32 thr 0 100) true s :=
    lt_of_le_of_lt hge hmax
  simp only [executeRampedMove, decide_eq_true_eq]
  set S := setTarget dir (clampI32 thr 0 100)
      (cancelAllMotionActivities (cancelPendingReverse s)) with hS
  have hSa : S.appliedThrottle = 0 := h0
  have hSd : S.currentDirection = Direction.STOP := hd
  have h00 : ¬ (clampI32 thr 0 100 = 0) := by
    intro hz
    rw [hz, eff_zero] at ht
    exact lt_irrefl 0 ht
  rw [if_neg h00]
  rw [if_neg (fun hc => absurd hSd hc.1)]
  rw [if_pos (⟨hSa, hSd⟩ : S.appliedThrottle = 0 ∧
      S.currentDirection = Direction.STOP)]
  rw [decide_eq_true (⟨hSa, hSd⟩ : S.appliedThrottle = 0 ∧
      S.currentDirection = Direction.STOP)]
  rw [eff_cfg (clampI32 thr 0 100) true S s rfl]
  split_ifs with hsk hdz hlt
  · exact Bool.noConfusion ((shouldKick_false_of_max hmax).symm.trans hsk)
  · exact ⟨rfl, rfl, rfl⟩
  · exact ⟨(startRamp_clearsKick _ _ _ _ _ _ _).1,
           (startRamp_clearsKick _ _ _ _ _ _ _).2,
           ((startRamp_pending _ _ _ _ _ _ _).1).trans rfl⟩
  · exact ⟨(startRamp_clearsKick _ _ _ _ _ _ _).1,
           (startRamp_clearsKick _ _ _ _ _ _ _).2,
           ((startRamp_pending _ _ _ _ _ _ _).1).trans rfl⟩

end PMT

namespace PMT

theorem maxI_pos {a b : Int} (h : 0 < a) : 0 < maxI a b := by
  unfold maxI
  split_ifs with h1 <;> omega

/-- C6: start-from-rest kick assist.  With the motor at rest, a ramped motion
command whose effective target `E` (after the MinStart floor) satisfies
`0 < E ≤ kickMaxApply`, with `kickThrottle > 0` and `kickDurationMs > 0`,
begins a kick: the applied throttle becomes `clamp(max(kickThrottle,
minStart), 0, 100)`, held on every loop tick until `kickEndMs =
now + kickDurationMs`, with the continuation toward `E` stored; if instead
`E` exceeds `kickMaxApply`, no kick and no staged continuation is created,
and a kick-free, pending-free state stays kick-free across every loop tick. -/
theorem C6 (dir : Direction) (thr : Int) (am dm : Nat) (kind : RampKind)
    (now : Nat) (s : Sys)
    (h0 : s.appliedThrottle = 0) (hd : s.currentDirection = Direction.STOP)
    (hg : s.graceActive = false) :
    ((0 < effectiveStartTargetThrottle (clampI32 thr 0 100) true s →
      effectiveStartTargetThrottle (clampI32 thr 0 100) true s
        ≤ s.cfgKickMaxApply →
      0 < s.cfgKickThrottle → 0 < s.cfgKickMs →
      (executeRampedMove dir thr am dm kind now s).kickActive = true ∧
      (executeRampedMove dir thr am dm kind now s).appliedThrottle
        = clampI32 (maxI s.cfgKickThrottle s.cfgMinStart) 0 100 ∧
      (executeRampedMove dir thr am dm kind now s).kickEndMs
        = now + s.cfgKickMs.toNat ∧
      (executeRampedMove dir thr am dm kind now s).postKickPending = true ∧
      (executeRampedMove dir thr am dm kind now s).postKickFinalThr
        = effectiveStartTargetThrottle (clampI32 thr 0 100) true s ∧
      ∀ m : Nat, m < (executeRampedMove dir thr am dm kind now s).kickEndMs →
        (loopTick m (executeRampedMove dir thr am dm kind now s)).appliedThrottle
          = (executeRampedMove dir thr am dm kind now s).appliedThrottle ∧
        (loopTick m (executeRampedMove dir thr am dm kind now s)).kickActive
          = true)) ∧
    ((0 ≤ s.cfgKickMaxApply →
      s.cfgKickMaxApply
        < effectiveStartTargetThrottle (clampI32 thr 0 100) true s →
      (executeRampedMove dir thr am dm kind now s).kickActive = false ∧
      (executeRampedMove dir thr am dm kind now s).postKickPending = false ∧
      (executeRampedMove dir thr am dm kind now s).reversePending = false)) ∧
    (∀ (u : Sys) (m : Nat), u.kickActive = false → u.reversePending = false →
      (loopTick m u).kickActive = false ∧
      (loopTick m u).reversePending = false) := by
  refine ⟨fun ht hmax hkt hkm => ?_,
    fun hge hmax => executeRamped_nokick dir thr am dm kind now s h0 hd hge
      hmax,
    fun u m hk hp => loopTick_no_kick m u hk hp⟩
  obtain ⟨k1, k2, k3, k4, k5, k6, k7, k8, k9, k10, k11⟩ :=
    executeRamped_kick dir thr am dm kind now s h0 hd ht hmax hkt hkm
  have hh0 : 0 < (executeRampedMove dir thr am dm kind now s).kickHoldThrottle
    := by
    rw [k3]
    exact clampI32_pos (maxI_pos hkt)
  have hh1 : (executeRampedMove dir thr am dm kind now s).kickHoldThrottle
      ≤ 100 := by
    rw [k3]
    exact clampI32_ub (by decide)
  refine ⟨k1, k5, k4, k6, k7, fun m hm => ?_⟩
  have H := kick_hold_tick m (executeRampedMove dir thr am dm kind now s)
    (k11.trans hg) k1 k9 k10 hh0 hh1 hm
  exact ⟨H.1.trans (k3.trans k5.symm), H.2⟩

end PMT

namespace PMT

/-- Witness for C6: with kick configured `K30,400` and MinStart 0, the command
`F10` from rest (target 10 ≤ maxApply 15) starts a kick holding 30, and a
loop tick at 100 ms (before the 400 ms kick end) still holds 30. -/
theorem C6_witness :
    (0:Int) < effectiveStartTargetThrottle (clampI32 10 0 100) true
      { cfgKickThrottle := 30, cfgKickMs := 400 } ∧
    (executeRampedMove Direction.FWD 10 FULL_MOMENTUM_ACCEL_MS
        FULL_MOMENTUM_DECEL_MS RampKind.MOMENTUM 0
        { cfgKickThrottle := 30, cfgKickMs := 400 }).kickActive = true ∧
    (executeRampedMove Direction.FWD 10 FULL_MOMENTUM_ACCEL_MS
        FULL_MOMENTUM_DECEL_MS RampKind.MOMENTUM 0
        { cfgKickThrottle := 30, cfgKickMs := 400 }).appliedThrottle = 30 ∧
    (loopTick 100 (executeRampedMove Direction.FWD 10 FULL_MOMENTUM_ACCEL_MS
        FULL_MOMENTUM_DECEL_MS RampKind.MOMENTUM 0
        { cfgKickThrottle := 30, cfgKickMs := 400 })).appliedThrottle = 30 := by
  have h := C6 Direction.FWD 10 FULL_MOMENTUM_ACCEL_MS FULL_MOMENTUM_DECEL_MS
    RampKind.MOMENTUM 0 { cfgKickThrottle := 30, cfgKickMs := 400 }
    rfl rfl rfl
  have hA := h.1 (by decide) (by decide) (by decide) (by decide)
  refine ⟨by decide, hA.1, hA.2.1.trans (by decide), ?_⟩
  have hm : 100 < (executeRampedMove Direction.FWD 10 FULL_MOMENTUM_ACCEL_MS
      FULL_MOMENTUM_DECEL_MS RampKind.MOMENTUM 0
      { cfgKickThrottle := 30, cfgKickMs := 400 }).kickEndMs := by
    rw [hA.2.2.1]
    decide
  exact ((hA.2.2.2.2.2 100 hm).1).trans (hA.2.1.trans (by decide))

end PMT
namespace PMT

theorem processKick_expiry (m : Nat) (u : Sys) (hk : u.kickActive = true)
    (hm : ¬ (m < u.kickEndMs)) :
    processKick m u = continueAfterKickIfNeeded m { u with kickActive := false }
    := by
  unfold processKick
  rw [hk, if_neg (by decide), if_neg hm]

theorem pending_fire (m : Nat) (u : Sys) (hrp : u.reversePending = true)
    (hst : u.pendingStage = PendingStage.WAIT_DIR_DELAY)
    (hnow : ¬ (m < u.pendingStageUntilMs))
    (hsup : u.pendingSuppressKickOnce = true)
    (hfi : u.pendingFinalIsInstant = false)
    (hfm : u.pendingFinalIsMomentum = true)
    (h0 : u.appliedThrottle = 0) (hd : u.currentDirection = Direction.STOP) :
    (processPendingReverse m u).kickActive = false ∧
    (processPendingReverse m u).rampKind = RampKind.MOMENTUM ∧
    (processPendingReverse m u).rampDirection = u.pendingFinalDirection ∧
    (processPendingReverse m u).targetThrottle
      = clampI32 (effectiveStartTargetThrottle
          (clampI32 u.pendingFinalTargetThrottle 0 100) true u) 0 100 ∧
    ((processPendingReverse m u).rampActive = true →
      (processPendingReverse m u).rampDurationMs
        = scaledDurationMs u.pendingFullAccelMs
            (absI (effectiveStartTargetThrottle
              (clampI32 u.pendingFinalTargetThrottle 0 100) true u)) ∧
      (processPendingReverse m u).rampStartThrottle = 0 ∧
      (processPendingReverse m u).rampTargetThrottle
        = clampI32 (effectiveStartTargetThrottle
            (clampI32 u.pendingFinalTargetThrottle 0 100) true u) 0 100) := by
  unfold processPendingReverse
  dsimp only []
  rw [hrp, if_neg (by decide)]
  rw [if_neg (not_not_intro hst)]
  rw [if_neg hnow]
  rw [hsup]
  rw [if_neg (fun hc => hc.1 rfl)]
  unfold setTarget
  dsimp only []
  rw [hfi]
  rw [if_neg (by decide : ¬ ((false:Bool) = true))]
  rw [hfm]
  rw [if_pos (rfl : (true:Bool) = true)]
  rw [decide_eq_true (⟨h0, hd⟩ : u.appliedThrottle = 0 ∧
      u.currentDirection = Direction.STOP)]
  unfold startRamp cancelAllMotionActivities setApplied applyPwmOutputs
    effectiveStartTargetThrottle
  dsimp only []
  simp only [Bool.not_true, Bool.false_eq_true, if_false]
  by_cases hin : scaledDurationMs u.pendingFullAccelMs
      (absI (if 0 < u.cfgMinStart ∧
          0 < clampI32 (clampI32 u.pendingFinalTargetThrottle 0 100) 0 100 then
        maxI (clampI32 (clampI32 u.pendingFinalTargetThrottle 0 100) 0 100)
          u.cfgMinStart
      else clampI32 (clampI32 u.pendingFinalTargetThrottle 0 100) 0 100)) = 0 ∨
      clampI32 0 0 100 = clampI32 (if 0 < u.cfgMinStart ∧
          0 < clampI32 (clampI32 u.pendingFinalTargetThrottle 0 100) 0 100 then
        maxI (clampI32 (clampI32 u.pendingFinalTargetThrottle 0 100) 0 100)
          u.cfgMinStart
      else clampI32 (clampI32 u.pendingFinalTargetThrottle 0 100) 0 100) 0 100
  · rw [if_pos hin]
    exact ⟨rfl, rfl, rfl, rfl, fun h => Bool.noConfusion h⟩
  · rw [if_neg hin]
    exact ⟨rfl, rfl, rfl, rfl, fun _ => ⟨rfl, rfl, rfl⟩⟩

end PMT

namespace PMT

/-- C7: kick expiry for ramped commands.  (a) When the kick begun by a ramped
command expires (`postKickIsInstant = false`), `continueAfterKickIfNeeded`
recovers toward 0 - not toward the final throttle - and stages a continuation
toward the stored final target with `pendingFinalIsMomentum = true`,
momentum-style pacing from the recorded full-scale acceleration constant, and
the direction-change delay suppressed (either `pendingSkipDirDelay = true`, or
the wait stage is armed to expire immediately at `now`).  (b) When a staged
continuation with the kick-suppression flag fires, the ramp started is always
`MOMENTUM`-kind from 0 with duration scaled by `pendingFullAccelMs`.  (c) Kick
expiry in `processKick` is exactly `continueAfterKickIfNeeded` on the state
with the kick cleared. -/
theorem C7 (now : Nat) (s : Sys) (hpk : s.postKickPending = true)
    (hpi : s.postKickIsInstant = false) (hra : s.rampActive = false) :
    ((continueAfterKickIfNeeded now s).reversePending = true ∧
     (continueAfterKickIfNeeded now s).pendingFinalDirection = s.postKickDir ∧
     (continueAfterKickIfNeeded now s).pendingFinalTargetThrottle
       = clampI32 s.postKickFinalThr 0 100 ∧
     (continueAfterKickIfNeeded now s).pendingFinalIsInstant = false ∧
     (continueAfterKickIfNeeded now s).pendingFinalIsMomentum = true ∧
     (continueAfterKickIfNeeded now s).pendingFullAccelMs
       = s.postKickFullAccelMs ∧
     (continueAfterKickIfNeeded now s).pendingSuppressKickOnce = true ∧
     ((continueAfterKickIfNeeded now s).rampActive = true →
       (continueAfterKickIfNeeded now s).rampTargetThrottle = 0 ∧
       (continueAfterKickIfNeeded now s).rampKind = RampKind.QUICKSTOP) ∧
     ((continueAfterKickIfNeeded now s).rampActive = false →
       (continueAfterKickIfNeeded now s).appliedThrottle = 0) ∧
     ((continueAfterKickIfNeeded now s).pendingSkipDirDelay = true ∨
      ((continueAfterKickIfNeeded now s).pendingStage
          = PendingStage.WAIT_DIR_DELAY ∧
       (continueAfterKickIfNeeded now s).pendingStageUntilMs = now ∧
       (continueAfterKickIfNeeded now s).appliedThrottle = 0))) ∧
    (∀ (u : Sys) (m : Nat), u.reversePending = true →
      u.pendingStage = PendingStage.WAIT_DIR_DELAY →
      ¬ (m < u.pendingStageUntilMs) → u.pendingSuppressKickOnce = true →
      u.pendingFinalIsInstant = false → u.pendingFinalIsMomentum = true →
      u.appliedThrottle = 0 → u.currentDirection = Direction.STOP →
      (processPendingReverse m u).kickActive = false ∧
      (processPendingReverse m u).rampKind = RampKind.MOMENTUM ∧
      (processPendingReverse m u).rampDirection = u.pendingFinalDirection ∧
      (processPendingReverse m u).targetThrottle
        = clampI32 (effectiveStartTargetThrottle
            (clampI32 u.pendingFinalTargetThrottle 0 100) true u) 0 100 ∧
      ((processPendingReverse m u).rampActive = true →
        (processPendingReverse m u).rampDurationMs
          = scaledDurationMs u.pendingFullAccelMs
              (absI (effectiveStartTargetThrottle
                (clampI32 u.pendingFinalTargetThrottle 0 100) true u)) ∧
        (processPendingReverse m u).rampStartThrottle = 0 ∧
        (processPendingReverse m u).rampTargetThrottle
          = clampI32 (effectiveStartTargetThrottle
              (clampI32 u.pendingFinalTargetThrottle 0 100) true u) 0 100)) ∧
    (∀ (u : Sys) (m : Nat), u.kickActive = true → ¬ (m < u.kickEndMs) →
      processKick m u
        = continueAfterKickIfNeeded m { u with kickActive := false }) := by
  refine ⟨?_, fun u m h1 h2 h3 h4 h5 h6 h7 h8 =>
    pending_fire m u h1 h2 h3 h4 h5 h6 h7 h8,
    fun u m hk hm => processKick_expiry m u hk hm⟩
  unfold continueAfterKickIfNeeded
  dsimp only []
  rw [hpk, if_neg (by decide)]
  rw [hpi]
  rw [if_pos (by decide : ((!false) = true))]
  rw [if_neg (by decide : ¬ ((false:Bool) = true))]
  by_cases hrd : s.cfgKickRampDownMs.toNat = 0
  · rw [if_pos hrd]
    unfold setApplied applyPwmOutputs
    dsimp only []
    rw [if_pos (by exact ⟨by decide, rfl, rfl⟩)]
    refine ⟨rfl, rfl, rfl, rfl, rfl, rfl, rfl, ?_, ?_, Or.inr ⟨rfl, rfl, rfl⟩⟩
    · intro h
      exact Bool.noConfusion (hra.symm.trans h)
    · intro _
      rfl
  · rw [if_neg hrd]
    unfold startRamp cancelAllMotionActivities setApplied applyPwmOutputs
    dsimp only []
    by_cases hin : s.cfgKickRampDownMs.toNat = 0 ∨
        clampI32 s.appliedThrottle 0 100 = clampI32 0 0 100
    · rw [if_pos hin]
      refine ⟨rfl, rfl, rfl, rfl, rfl, rfl, rfl, ?_, ?_, Or.inl rfl⟩
      · intro h
        exact Bool.noConfusion h
      · intro _
        rfl
    · rw [if_neg hin]
      refine ⟨rfl, rfl, rfl, rfl, rfl, rfl, rfl, ?_, ?_, Or.inl rfl⟩
      · intro _
        exact ⟨rfl, rfl⟩
      · intro h
        exact Bool.noConfusion h

end PMT

namespace PMT

/-- Witness for C7: a kick begun by a quick-ramp command (`postKickFullAccelMs
= 2500`) expires at 500 ms; the continuation is staged momentum-style with the
recorded 2500 ms constant and the delay suppressed. -/
theorem C7_witness :
    (continueAfterKickIfNeeded 500
      { postKickPending := true, postKickDir := Direction.FWD,
        postKickFinalThr := 40, postKickIsMomentum := true,
        postKickFullAccelMs := 2500, appliedThrottle := 30,
        currentDirection := Direction.FWD, kickHoldThrottle := 30
        }).reversePending = true ∧
    (continueAfterKickIfNeeded 500
      { postKickPending := true, postKickDir := Direction.FWD,
        postKickFinalThr := 40, postKickIsMomentum := true,
        postKickFullAccelMs := 2500, appliedThrottle := 30,
        currentDirection := Direction.FWD, kickHoldThrottle := 30
        }).pendingFinalIsMomentum = true ∧
    (continueAfterKickIfNeeded 500
      { postKickPending := true, postKickDir := Direction.FWD,
        postKickFinalThr := 40, postKickIsMomentum := true,
        postKickFullAccelMs := 2500, appliedThrottle := 30,
        currentDirection := Direction.FWD, kickHoldThrottle := 30
        }).pendingFullAccelMs = 2500 ∧
    (continueAfterKickIfNeeded 500
      { postKickPending := true, postKickDir := Direction.FWD,
        postKickFinalThr := 40, postKickIsMomentum := true,
        postKickFullAccelMs := 2500, appliedThrottle := 30,
        currentDirection := Direction.FWD, kickHoldThrottle := 30
        }).pendingSkipDirDelay = true := by
  have h := C7 500
    { postKickPending := true, postKickDir := Direction.FWD,
      postKickFinalThr := 40, postKickIsMomentum := true,
      postKickFullAccelMs := 2500, appliedThrottle := 30,
      currentDirection := Direction.FWD, kickHoldThrottle := 30 }
    rfl rfl rfl
  refine ⟨h.1.1, h.1.2.2.2.2.1, (h.1.2.2.2.2.2.1).trans rfl, ?_⟩
  rcases h.1.2.2.2.2.2.2.2.2.2 with hskip | hstage
  · exact hskip
  · exact absurd (hstage.2.2.trans rfl) (by decide)

end PMT
namespace PMT

/-- C2 (amended): at every reachable state, and at every intermediate state
between the sub-steps of a loop tick, the applied throttle lies in [0,100]
and `currentDirection = STOP` implies `appliedThrottle = 0`.  (The converse
implication of the original claim is refuted by `C2_counterexample`.) -/
theorem C2 {s : Sys} (h : Reachable s) :
    (throttleOk s ∧ stopZero s) ∧
    ∀ now : Nat,
      (throttleOk (processBleGrace now s) ∧ stopZero (processBleGrace now s)) ∧
      (throttleOk (processKick now (processBleGrace now s)) ∧
       stopZero (processKick now (processBleGrace now s))) ∧
      (throttleOk (processRamp now (processKick now (processBleGrace now s))) ∧
       stopZero (processRamp now (processKick now (processBleGrace now s)))) ∧
      (throttleOk (processPendingReverse now
          (processRamp now (processKick now (processBleGrace now s)))) ∧
       stopZero (processPendingReverse now
          (processRamp now (processKick now (processBleGrace now s))))) := by
  have hI := reachable_inv h
  refine ⟨⟨hI.1, hI.2.1⟩, fun now => ?_⟩
  have h1 := inv_processBleGrace now hI
  have h2 := inv_processKick now h1
  have h3 := inv_processRamp now h2
  have h4 := inv_processPendingReverse now h3
  exact ⟨⟨h1.1, h1.2.1⟩, ⟨h2.1, h2.2.1⟩, ⟨h3.1, h3.2.1⟩, ⟨h4.1, h4.2.1⟩⟩

/-- Counterexample to C2 as stated: the original claim's "if and only if"
fails.  After connecting and sending `F50` from rest, the firmware is in a
reachable state whose ramp has just been armed: `currentDirection` is already
`FWD` while `appliedThrottle` is still 0. -/
theorem C2_counterexample :
    Reachable ((onWrite (str "F50") 0 (onConnect initialState)).1) ∧
    ((onWrite (str "F50") 0 (onConnect initialState)).1).appliedThrottle = 0 ∧
    ((onWrite (str "F50") 0 (onConnect initialState)).1).currentDirection
      = Direction.FWD :=
  ⟨Reachable.write (str "F50") 0 (Reachable.connect Reachable.init),
   by decide, by decide⟩

/-- Witness for C2 at the boot state. -/
theorem C2_witness :
    throttleOk initialState ∧ stopZero initialState :=
  (C2 Reachable.init).1

end PMT
namespace PMT

/-- C4 (amended): while the forced-stop latch is set and the link is down,
motion commands (`F`/`R` with digits, `FQ`/`RQ` with digits) are acknowledged
but converted to an immediate hard stop (`stopMotorNow`: applied 0, direction
STOP, no ramp); the stop commands `S`/`B` are honored as a stop ramp only
when NOT (latched and disconnected) - under the latch with the link down they
too are converted to the immediate hard stop (refuting the original
"regardless of latch state"; see `C4_counterexample`). -/
theorem C4 (pres orig upper : Str) (now : Nat) (s : Sys)
    (hl : s.forcedStopLatched = true) (hc : s.bleConnected = false) :
    ((stopMotorNow s).appliedThrottle = 0 ∧
     (stopMotorNow s).currentDirection = Direction.STOP ∧
     (stopMotorNow s).rampActive = false) ∧
    (isDigitStr (trimS (orig.drop 1)) = true →
      startsWithS upper (str "FQ") = false →
      startsWithS upper (str "RQ") = false →
      handleMomentum pres orig upper now s = (stopMotorNow s, [ackMsg pres])) ∧
    (isDigitStr (trimS (orig.drop 2)) = true →
      handleQuickRamp pres orig upper now s = (stopMotorNow s, [ackMsg pres])) ∧
    (∀ kind : RampKind, handleStop pres kind now s
        = (stopMotorNow s, [ackMsg pres])) ∧
    (∀ (v : Sys) (kind : RampKind) (m : Nat),
      ¬ (v.forcedStopLatched = true ∧ v.bleConnected = false) →
      handleStop pres kind m v = (executeStopRamp kind m v, [ackMsg pres]))
    := by
  have hlatch : ¬ ¬ (s.forcedStopLatched = true ∧ ¬ (s.bleConnected = true))
    := not_not_intro ⟨hl, fun hT => Bool.noConfusion (hc.symm.trans hT)⟩
  refine ⟨⟨rfl, rfl, rfl⟩, fun hdig hfq hrq => ?_, fun hdig => ?_,
    fun kind => ?_, fun v kind m hno => ?_⟩
  · unfold handleMomentum
    dsimp only []
    rw [if_neg (fun hor => hor.elim
      (fun hq => Bool.noConfusion (hfq.symm.trans hq))
      (fun hq => Bool.noConfusion (hrq.symm.trans hq)))]
    rw [hdig, if_neg (by decide : ¬ ((!true) = true))]
    rw [if_neg hlatch]
  · unfold handleQuickRamp
    dsimp only []
    rw [hdig, if_neg (by decide : ¬ ((!true) = true))]
    rw [if_neg hlatch]
  · unfold handleStop
    rw [if_neg hlatch]
  · unfold handleStop
    rw [if_pos (fun hpair => hno ⟨hpair.1, Bool.eq_false_iff.mpr hpair.2⟩)]

/-- Witness for C4: under the latch with the link down, `S` becomes an
immediate hard stop with an ACK. -/
theorem C4_witness :
    handleStop (str "S") RampKind.QUICKSTOP 0
      { forcedStopLatched := true, bleConnected := false,
        appliedThrottle := 60, currentDirection := Direction.FWD }
      = (stopMotorNow
          { forcedStopLatched := true, bleConnected := false,
            appliedThrottle := 60, currentDirection := Direction.FWD },
         [ackMsg (str "S")]) :=
  (C4 (str "S") (str "S") (str "S") 0
    { forcedStopLatched := true, bleConnected := false,
      appliedThrottle := 60, currentDirection := Direction.FWD }
    rfl rfl).2.2.2.1 RampKind.QUICKSTOP

/-- Counterexample to C4 as stated: `S` is NOT honored as a stop ramp
"regardless of latch state".  Reachable trace: connect, `F60` at 0 ms, tick
at 12000 ms (ramp completes at 60), disconnect at 12000 ms, tick at 27000 ms
(grace expired: latch set, forced stop ramp begins, applied still 60).  The
`S` command at 27100 ms then zeroes the output instantly with no ramp,
while an actual QuickStop ramp from the same state would still be at 60 with
an active ramp. -/
theorem C4_counterexample :
    Reachable (loopTick 27000 (onDisconnect 12000 (loopTick 12000
      (onWrite (str "F60") 0 (onConnect initialState)).1))) ∧
    (loopTick 27000 (onDisconnect 12000 (loopTick 12000
      (onWrite (str "F60") 0 (onConnect initialState)).1))).forcedStopLatched
      = true ∧
    (loopTick 27000 (onDisconnect 12000 (loopTick 12000
      (onWrite (str "F60") 0 (onConnect initialState)).1))).bleConnected
      = false ∧
    (loopTick 27000 (onDisconnect 12000 (loopTick 12000
      (onWrite (str "F60") 0 (onConnect initialState)).1))).appliedThrottle
      = 60 ∧
    (onWrite (str "S") 27100 (loopTick 27000 (onDisconnect 12000
      (loopTick 12000 (onWrite (str "F60") 0
        (onConnect initialState)).1)))).2
      = [ackMsg (str "S")] ∧
    (onWrite (str "S") 27100 (loopTick 27000 (onDisconnect 12000
      (loopTick 12000 (onWrite (str "F60") 0
        (onConnect initialState)).1)))).1.appliedThrottle = 0 ∧
    (onWrite (str "S") 27100 (loopTick 27000 (onDisconnect 12000
      (loopTick 12000 (onWrite (str "F60") 0
        (onConnect initialState)).1)))).1.rampActive = false ∧
    (executeStopRamp RampKind.QUICKSTOP 27100 (loopTick 27000
      (onDisconnect 12000 (loopTick 12000 (onWrite (str "F60") 0
        (onConnect initialState)).1)))).rampActive = true ∧
    (executeStopRamp RampKind.QUICKSTOP 27100 (loopTick 27000
      (onDisconnect 12000 (loopTick 12000 (onWrite (str "F60") 0
        (onConnect initialState)).1)))).appliedThrottle = 60 :=
  ⟨Reachable.tick 27000 (Reachable.disconnect 12000 (Reachable.tick 12000
      (Reachable.write (str "F60") 0 (Reachable.connect Reachable.init)))),
   by decide, by decide, by decide, by decide, by decide, by decide,
   by decide, by decide⟩

end PMT
namespace PMT

theorem scaledDurationMs_le (full : Nat) (delta : Int) (h1 : 1 ≤ full) :
    scaledDurationMs full delta ≤ full := by
  unfold scaledDurationMs
  dsimp only []
  split_ifs with h
  · exact h1
  · have hub := @clampI32_ub delta 0 100 (by decide)
    have hlb := @clampI32_lb delta 0 100 (by decide)
    have hd : (clampI32 delta 0 100).toNat ≤ 100 := by omega
    calc full * (clampI32 delta 0 100).toNat / 100 ≤ full * 100 / 100 :=
          Nat.div_le_div_right (Nat.mul_le_mul_left full hd)
      _ = full := Nat.mul_div_cancel full (by decide)

theorem processRamp_complete (m : Nat) (u : Sys) (hra : u.rampActive = true)
    (htz : u.rampTargetThrottle = 0)
    (hdone : u.rampDurationMs ≤ m - u.rampStartMs) :
    (processRamp m u).appliedThrottle = 0 ∧
    (processRamp m u).rampActive = false ∧
    (processRamp m u).currentDirection = Direction.STOP := by
  simp only [processRamp, setApplied, applyPwmOutputs, hra, htz, Bool.not_true,
    Bool.false_eq_true, if_false, if_true, eq_self_iff_true, true_and,
    and_true]
  by_cases hz : smoothstepEasedThrottle u.rampStartThrottle 0
      (m - u.rampStartMs) u.rampDurationMs = 0
  · rw [if_pos hz, if_pos hdone]
    rw [if_pos (rfl : (0:Int) = 0)]
    dsimp only []
    by_cases hrp : u.reversePending = true ∧ (0:Int) = 0
    · rw [if_pos hrp]
      exact ⟨rfl, rfl, rfl⟩
    · rw [if_neg hrp]
      exact ⟨rfl, rfl, rfl⟩
  · rw [if_neg hz, if_pos hdone]
    rw [if_pos (rfl : (0:Int) = 0)]
    dsimp only []
    by_cases hrp : u.reversePending = true ∧ (0:Int) = 0
    · rw [if_pos hrp]
      exact ⟨rfl, rfl, rfl⟩
    · rw [if_neg hrp]
      exact ⟨rfl, rfl, rfl⟩

theorem handleMomentum_latched (pres orig upper : Str) (m : Nat) (v : Sys)
    (hl : v.forcedStopLatched = true) (hc : v.bleConnected = false)
    (hdig : isDigitStr (trimS (orig.drop 1)) = true)
    (hfq : startsWithS upper (str "FQ") = false)
    (hrq : startsWithS upper (str "RQ") = false) :
    handleMomentum pres orig upper m v = (stopMotorNow v, [ackMsg pres]) := by
  unfold handleMomentum
  dsimp only []
  rw [if_neg (fun hor => hor.elim
    (fun hq => Bool.noConfusion (hfq.symm.trans hq))
    (fun hq => Bool.noConfusion (hrq.symm.trans hq)))]
  rw [hdig, if_neg (by decide : ¬ ((!true) = true))]
  rw [if_neg (not_not_intro
    ⟨hl, fun hT => Bool.noConfusion (hc.symm.trans hT)⟩)]

theorem handleQuickRamp_latched (pres orig upper : Str) (m : Nat) (v : Sys)
    (hl : v.forcedStopLatched = true) (hc : v.bleConnected = false)
    (hdig : isDigitStr (trimS (orig.drop 2)) = true) :
    handleQuickRamp pres orig upper m v = (stopMotorNow v, [ackMsg pres]) := by
  unfold handleQuickRamp
  dsimp only []
  rw [hdig, if_neg (by decide : ¬ ((!true) = true))]
  rw [if_neg (not_not_intro
    ⟨hl, fun hT => Bool.noConfusion (hc.symm.trans hT)⟩)]

theorem handleMomentum_reconnect (pres orig upper : Str) (m : Nat) (v : Sys)
    (hl : v.forcedStopLatched = true) (hc : v.bleConnected = true)
    (hdig : isDigitStr (trimS (orig.drop 1)) = true)
    (hfq : startsWithS upper (str "FQ") = false)
    (hrq : startsWithS upper (str "RQ") = false) :
    handleMomentum pres orig upper m v
      = (executeMomentum
          (if startsWithS upper (str "F") then Direction.FWD
           else Direction.REV)
          (clampI32 (digitsToInt (trimS (orig.drop 1))) 0 100) m
          { v with forcedStopLatched := false }, [ackMsg pres]) := by
  unfold handleMomentum
  dsimp only []
  rw [if_neg (fun hor => hor.elim
    (fun hq => Bool.noConfusion (hfq.symm.trans hq))
    (fun hq => Bool.noConfusion (hrq.symm.trans hq)))]
  rw [hdig, if_neg (by decide : ¬ ((!true) = true))]
  rw [if_pos (fun hpair => absurd hc hpair.2)]
  rw [if_pos (⟨hl, hc⟩ : v.forcedStopLatched = true ∧
      v.bleConnected = true)]

theorem handleQuickRamp_reconnect (pres orig upper : Str) (m : Nat) (v : Sys)
    (hl : v.forcedStopLatched = true) (hc : v.bleConnected = true)
    (hdig : isDigitStr (trimS (orig.drop 2)) = true) :
    handleQuickRamp pres orig upper m v
      = (executeQuickRamp
          (if startsWithS upper (str "FQ") then Direction.FWD
           else Direction.REV)
          (clampI32 (digitsToInt (trimS (orig.drop 2))) 0 100) m
          { v with forcedStopLatched := false }, [ackMsg pres]) := by
  unfold handleQuickRamp
  dsimp only []
  rw [hdig, if_neg (by decide : ¬ ((!true) = true))]
  rw [if_pos (fun hpair => absurd hc hpair.2)]
  rw [if_pos (⟨hl, hc⟩ : v.forcedStopLatched = true ∧
      v.bleConnected = true)]

end PMT

namespace PMT

theorem processBleGrace_expiry (now : Nat) (s : Sys)
    (hg : s.graceActive = true) (hex : BLE_GRACE_MS ≤ now - s.disconnectMs) :
    (processBleGrace now s).forcedStopLatched = true ∧
    (processBleGrace now s).graceActive = false ∧
    (processBleGrace now s).rampKind = RampKind.QUICKSTOP ∧
    (processBleGrace now s).targetThrottle = 0 ∧
    ((processBleGrace now s).rampActive = true →
      (processBleGrace now s).appliedThrottle = s.appliedThrottle ∧
      (processBleGrace now s).rampTargetThrottle = 0 ∧
      (processBleGrace now s).rampStartMs = now ∧
      (processBleGrace now s).rampDurationMs
        = scaledDurationMs FULL_QUICKSTOP_MS (absI s.appliedThrottle) ∧
      (processBleGrace now s).rampDurationMs ≤ FULL_QUICKSTOP_MS) ∧
    ((processBleGrace now s).rampActive = false →
      (processBleGrace now s).appliedThrottle = 0) := by
  unfold processBleGrace
  dsimp only []
  rw [hg, if_neg (by decide), if_pos hex]
  unfold executeStopRamp cancelAllMotionActivities setTarget startRamp
    setApplied applyPwmOutputs
  dsimp only []
  rw [if_neg (by decide : ¬ (RampKind.QUICKSTOP = RampKind.BRAKE))]
  rw [if_neg (by decide : ¬ (RampKind.QUICKSTOP = RampKind.MOMENTUM))]
  by_cases hin : scaledDurationMs FULL_QUICKSTOP_MS (absI s.appliedThrottle)
      = 0 ∨ clampI32 s.appliedThrottle 0 100 = clampI32 0 0 100
  · rw [if_pos hin]
    exact ⟨rfl, rfl, rfl, rfl, fun h => Bool.noConfusion h, fun _ => rfl⟩
  · rw [if_neg hin]
    exact ⟨rfl, rfl, rfl, rfl,
      fun _ => ⟨rfl, rfl, rfl, rfl, scaledDurationMs_le _ _ (by decide)⟩,
      fun h => Bool.noConfusion h⟩

end PMT

namespace PMT

/-- C3: grace expiry and the forced-stop latch.  (i) When the grace countdown
expires disconnected, the latch is set and a QuickStop-kind eased stop ramp is
begun: the output is not cut (it keeps its pre-expiry value as the ramp start),
the ramp target is 0 and its duration is the QuickStop scaled duration, at
most `FULL_QUICKSTOP_MS`; if no ramp is needed the output is already 0.
(ii) A stop ramp to 0 reaches 0 once its duration elapses.  (iii) While
latched and still disconnected, every motion command (F/R with digits, FQ/RQ
with digits) leaves the applied throttle at 0.  (iv) The first motion command
while latched but reconnected clears the latch and is executed normally. -/
theorem C3 (now : Nat) (s : Sys) (hg : s.graceActive = true)
    (hex : BLE_GRACE_MS ≤ now - s.disconnectMs) :
    ((processBleGrace now s).forcedStopLatched = true ∧
     (processBleGrace now s).graceActive = false ∧
     (processBleGrace now s).rampKind = RampKind.QUICKSTOP ∧
     (processBleGrace now s).targetThrottle = 0 ∧
     ((processBleGrace now s).rampActive = true →
       (processBleGrace now s).appliedThrottle = s.appliedThrottle ∧
       (processBleGrace now s).rampTargetThrottle = 0 ∧
       (processBleGrace now s).rampStartMs = now ∧
       (processBleGrace now s).rampDurationMs
         = scaledDurationMs FULL_QUICKSTOP_MS (absI s.appliedThrottle) ∧
       (processBleGrace now s).rampDurationMs ≤ FULL_QUICKSTOP_MS) ∧
     ((processBleGrace now s).rampActive = false →
       (processBleGrace now s).appliedThrottle = 0)) ∧
    (∀ (u : Sys) (m : Nat), u.rampActive = true → u.rampTargetThrottle = 0 →
      u.rampDurationMs ≤ m - u.rampStartMs →
      (processRamp m u).appliedThrottle = 0 ∧
      (processRamp m u).rampActive = false ∧
      (processRamp m u).currentDirection = Direction.STOP) ∧
    (∀ (pres orig upper : Str) (m : Nat) (v : Sys),
      v.forcedStopLatched = true → v.bleConnected = false →
      (isDigitStr (trimS (orig.drop 1)) = true →
        startsWithS upper (str "FQ") = false →
        startsWithS upper (str "RQ") = false →
        handleMomentum pres orig upper m v = (stopMotorNow v, [ackMsg pres]) ∧
        (stopMotorNow v).appliedThrottle = 0) ∧
      (isDigitStr (trimS (orig.drop 2)) = true →
        handleQuickRamp pres orig upper m v = (stopMotorNow v, [ackMsg pres]) ∧
        (stopMotorNow v).appliedThrottle = 0)) ∧
    (∀ (pres orig upper : Str) (m : Nat) (v : Sys),
      v.forcedStopLatched = true → v.bleConnected = true →
      (isDigitStr (trimS (orig.drop 1)) = true →
        startsWithS upper (str "FQ") = false →
        startsWithS upper (str "RQ") = false →
        handleMomentum pres orig upper m v
          = (executeMomentum
              (if startsWithS upper (str "F") then Direction.FWD
               else Direction.REV)
              (clampI32 (digitsToInt (trimS (orig.drop 1))) 0 100) m
              { v with forcedStopLatched := false }, [ackMsg pres])) ∧
      (isDigitStr (trimS (orig.drop 2)) = true →
        handleQuickRamp pres orig upper m v
          = (executeQuickRamp
              (if startsWithS upper (str "FQ") then Direction.FWD
               else Direction.REV)
              (clampI32 (digitsToInt (trimS (orig.drop 2))) 0 100) m
              { v with forcedStopLatched := false }, [ackMsg pres]))) :=
  ⟨processBleGrace_expiry now s hg hex,
   fun u m h1 h2 h3 => processRamp_complete m u h1 h2 h3,
   fun pres orig upper m v hl hc =>
     ⟨fun hd1 hf hr =>
        ⟨handleMomentum_latched pres orig upper m v hl hc hd1 hf hr, rfl⟩,
      fun hd2 => ⟨handleQuickRamp_latched pres orig upper m v hl hc hd2, rfl⟩⟩,
   fun pres orig upper m v hl hc =>
     ⟨fun hd1 hf hr =>
        handleMomentum_reconnect pres orig upper m v hl hc hd1 hf hr,
      fun hd2 => handleQuickRamp_reconnect pres orig upper m v hl hc hd2⟩⟩

/-- Witness for C3: grace expiry at 15000 ms from applied throttle 60 sets the
latch and starts a QuickStop ramp from 60 toward 0. -/
theorem C3_witness :
    (processBleGrace 15000
      { graceActive := true, disconnectMs := 0, appliedThrottle := 60,
        currentDirection := Direction.FWD,
        bleConnected := false }).forcedStopLatched = true ∧
    (processBleGrace 15000
      { graceActive := true, disconnectMs := 0, appliedThrottle := 60,
        currentDirection := Direction.FWD,
        bleConnected := false }).rampKind = RampKind.QUICKSTOP :=
  ⟨(C3 15000
      { graceActive := true, disconnectMs := 0, appliedThrottle := 60,
        currentDirection := Direction.FWD, bleConnected := false }
      rfl (by decide)).1.1,
   (C3 15000
      { graceActive := true, disconnectMs := 0, appliedThrottle := 60,
        currentDirection := Direction.FWD, bleConnected := false }
      rfl (by decide)).1.2.2.1⟩

end PMT
namespace PMT

theorem processRamp_armStage (m : Nat) (u : Sys) (hra : u.rampActive = true)
    (htz : u.rampTargetThrottle = 0)
    (hdone : u.rampDurationMs ≤ m - u.rampStartMs)
    (hrp : u.reversePending = true) :
    (processRamp m u).appliedThrottle = 0 ∧
    (processRamp m u).currentDirection = Direction.STOP ∧
    (processRamp m u).pendingStage = PendingStage.WAIT_DIR_DELAY ∧
    (processRamp m u).pendingStageUntilMs
      = m + (if u.pendingSkipDirDelay then 0 else DIR_CHANGE_DELAY_MS) ∧
    (processRamp m u).pendingSkipDirDelay = false := by
  simp only [processRamp, setApplied, applyPwmOutputs, hra, htz, Bool.not_true,
    Bool.false_eq_true, if_false, if_true, eq_self_iff_true, true_and,
    and_true]
  by_cases hz : smoothstepEasedThrottle u.rampStartThrottle 0
      (m - u.rampStartMs) u.rampDurationMs = 0
  · rw [if_pos hz, if_pos hdone]
    rw [if_pos (rfl : (0:Int) = 0)]
    dsimp only []
    rw [if_pos (⟨hrp, rfl⟩ : u.reversePending = true ∧ (0:Int) = 0)]
    exact ⟨rfl, rfl, rfl, rfl, rfl⟩
  · rw [if_neg hz, if_pos hdone]
    rw [if_pos (rfl : (0:Int) = 0)]
    dsimp only []
    rw [if_pos (⟨hrp, rfl⟩ : u.reversePending = true ∧ (0:Int) = 0)]
    exact ⟨rfl, rfl, rfl, rfl, rfl⟩

theorem processPendingReverse_hold (m : Nat) (u : Sys)
    (hrp : u.reversePending = true)
    (hst : u.pendingStage = PendingStage.WAIT_DIR_DELAY)
    (hm : m < u.pendingStageUntilMs) :
    processPendingReverse m u = u := by
  unfold processPendingReverse
  rw [hrp, if_neg (by decide)]
  rw [if_neg (not_not_intro hst)]
  rw [if_pos hm]

end PMT

namespace PMT

/-- C1 (amended): direction reversal passes through zero with a delay, with
the suppression governed by the `pendingSkipDirDelay` flag rather than by the
presence of a post-kick continuation.  (i) When a stop-ramp to 0 completes
with a reverse pending, the output is 0, the direction is STOP, and the wait
stage is armed to `now + DIR_CHANGE_DELAY_MS` - or `now + 0` if
`pendingSkipDirDelay` was set - consuming the flag.  (ii) Before the armed
deadline the pending-reverse processor leaves the state (hence the zero
output) untouched.  (iii) `cancelPendingReverse` - run at the start of every
motion command - clears the pending reverse but NOT `pendingSkipDirDelay`, and
(iv) `scheduleReverseAfterStop` does not touch the flag either, so a stale
flag from an earlier post-kick continuation suppresses the delay of a later
unrelated reversal (see `C1_counterexample`). -/
theorem C1 (m : Nat) (u : Sys) (hra : u.rampActive = true)
    (htz : u.rampTargetThrottle = 0)
    (hdone : u.rampDurationMs ≤ m - u.rampStartMs)
    (hrp : u.reversePending = true) :
    ((processRamp m u).appliedThrottle = 0 ∧
     (processRamp m u).currentDirection = Direction.STOP ∧
     (processRamp m u).pendingStage = PendingStage.WAIT_DIR_DELAY ∧
     (processRamp m u).pendingStageUntilMs
       = m + (if u.pendingSkipDirDelay then 0 else DIR_CHANGE_DELAY_MS) ∧
     (processRamp m u).pendingSkipDirDelay = false) ∧
    (∀ (v : Sys) (k : Nat), v.reversePending = true →
      v.pendingStage = PendingStage.WAIT_DIR_DELAY →
      k < v.pendingStageUntilMs →
      processPendingReverse k v = v) ∧
    (∀ v : Sys,
      (cancelPendingReverse v).pendingSkipDirDelay = v.pendingSkipDirDelay ∧
      (cancelPendingReverse v).reversePending = false) ∧
    (∀ (v : Sys) (d : Direction) (t : Int) (bi bm : Bool),
      (scheduleReverseAfterStop d t bi bm v).pendingSkipDirDelay
        = v.pendingSkipDirDelay) :=
  ⟨processRamp_armStage m u hra htz hdone hrp,
   fun v k h1 h2 h3 => processPendingReverse_hold k v h1 h2 h3,
   fun _ => ⟨rfl, rfl⟩,
   fun _ _ _ _ _ => rfl⟩

/-- Witness for C1: a stop-ramp 20 → 0 lasting 500 ms, started at 0 ms with a
reverse pending and no skip flag, completes at tick 500: output 0, stage
armed until 2500 ms; at tick 1000 ms (before the deadline) the pending
processor leaves the state untouched. -/
theorem C1_witness :
    (processRamp 500
      { rampActive := true, rampTargetThrottle := 0, rampDurationMs := 500,
        rampStartMs := 0, rampStartThrottle := 20, appliedThrottle := 20,
        currentDirection := Direction.FWD, rampDirection := Direction.FWD,
        reversePending := true, pendingFinalDirection := Direction.REV,
        pendingFinalTargetThrottle := 40 }).appliedThrottle = 0 ∧
    (processRamp 500
      { rampActive := true, rampTargetThrottle := 0, rampDurationMs := 500,
        rampStartMs := 0, rampStartThrottle := 20, appliedThrottle := 20,
        currentDirection := Direction.FWD, rampDirection := Direction.FWD,
        reversePending := true, pendingFinalDirection := Direction.REV,
        pendingFinalTargetThrottle := 40 }).pendingStageUntilMs = 2500 ∧
    processPendingReverse 1000
      { reversePending := true, pendingStage := PendingStage.WAIT_DIR_DELAY,
        pendingStageUntilMs := 2500, pendingFinalDirection := Direction.REV,
        pendingFinalTargetThrottle := 40 }
      = { reversePending := true, pendingStage := PendingStage.WAIT_DIR_DELAY,
          pendingStageUntilMs := 2500, pendingFinalDirection := Direction.REV,
          pendingFinalTargetThrottle := 40 } :=
  ⟨(C1 500
      { rampActive := true, rampTargetThrottle := 0, rampDurationMs := 500,
        rampStartMs := 0, rampStartThrottle := 20, appliedThrottle := 20,
        currentDirection := Direction.FWD, rampDirection := Direction.FWD,
        reversePending := true, pendingFinalDirection := Direction.REV,
        pendingFinalTargetThrottle := 40 } rfl rfl (by decide) rfl).1.1,
   ((C1 500
      { rampActive := true, rampTargetThrottle := 0, rampDurationMs := 500,
        rampStartMs := 0, rampStartThrottle := 20, appliedThrottle := 20,
        currentDirection := Direction.FWD, rampDirection := Direction.FWD,
        reversePending := true, pendingFinalDirection := Direction.REV,
        pendingFinalTargetThrottle := 40 } rfl rfl (by decide) rfl).1.2.2.2.1).trans
     (by decide),
   (C1 500
      { rampActive := true, rampTargetThrottle := 0, rampDurationMs := 500,
        rampStartMs := 0, rampStartThrottle := 20, appliedThrottle := 20,
        currentDirection := Direction.FWD, rampDirection := Direction.FWD,
        reversePending := true, pendingFinalDirection := Direction.REV,
        pendingFinalTargetThrottle := 40 } rfl rfl (by decide) rfl).2.1
     { reversePending := true, pendingStage := PendingStage.WAIT_DIR_DELAY,
       pendingStageUntilMs := 2500, pendingFinalDirection := Direction.REV,
       pendingFinalTargetThrottle := 40 } 1000 rfl rfl (by decide)⟩

/-- Counterexample to C1 as stated: the direction-change delay is suppressed
WITHOUT a post-kick continuation.  Reachable trace: connect; `K30,400`;
`F10` at 0 ms (kick begins, FWD at 30); tick at 400 ms (kick expires, 80 ms
ramp-down armed, continuation staged with `pendingSkipDirDelay = true`);
`R10` at 420 ms (ordinary user reversal: `cancelPendingReverse` clears the
continuation - `postKickPending` and `reversePending` are re-staged fresh -
but leaves the stale skip flag set).  At that state the motor runs FWD at 30
with NO post-kick continuation pending, yet the single tick at 6420 ms (stop
ramp completion) flips the output to REV at 30: the applied throttle is never
observed at 0, let alone held at 0 for DIR_CHANGE_DELAY_MS. -/
theorem C1_counterexample :
    Reachable ((onWrite (str "R10") 420 (loopTick 400 (onWrite (str "F10") 0
      (onWrite (str "K30,400") 0 (onConnect initialState)).1).1)).1) ∧
    ((onWrite (str "R10") 420 (loopTick 400 (onWrite (str "F10") 0
      (onWrite (str "K30,400") 0
        (onConnect initialState)).1).1)).1).currentDirection
      = Direction.FWD ∧
    ((onWrite (str "R10") 420 (loopTick 400 (onWrite (str "F10") 0
      (onWrite (str "K30,400") 0
        (onConnect initialState)).1).1)).1).appliedThrottle = 30 ∧
    ((onWrite (str "R10") 420 (loopTick 400 (onWrite (str "F10") 0
      (onWrite (str "K30,400") 0
        (onConnect initialState)).1).1)).1).postKickPending = false ∧
    ((onWrite (str "R10") 420 (loopTick 400 (onWrite (str "F10") 0
      (onWrite (str "K30,400") 0
        (onConnect initialState)).1).1)).1).pendingSkipDirDelay = true ∧
    (loopTick 6420 ((onWrite (str "R10") 420 (loopTick 400
      (onWrite (str "F10") 0 (onWrite (str "K30,400") 0
        (onConnect initialState)).1).1)).1)).currentDirection
      = Direction.REV ∧
    (loopTick 6420 ((onWrite (str "R10") 420 (loopTick 400
      (onWrite (str "F10") 0 (onWrite (str "K30,400") 0
        (onConnect initialState)).1).1)).1)).appliedThrottle = 30 :=
  ⟨Reachable.write (str "R10") 420 (Reachable.tick 400
      (Reachable.write (str "F10") 0 (Reachable.write (str "K30,400") 0
        (Reachable.connect Reachable.init)))),
   by decide, by decide, by decide, by decide, by decide, by decide⟩

end PMT
